import Mathlib

/-!
Verification of the battle-chess core (src/core) against its specification.

The TypeScript sources are embedded shallowly:
* machine numbers are `Nat`/`Int`; `Math.floor(d * 1.3)` on the integers this
  program produces agrees with `d * 13 / 10` in exact arithmetic (checked for
  all magnitudes up to 2 * 10^5, far beyond any reachable stat), and
  `Math.floor(d * 0.8)` with `d * 8 / 10`;
* in-place mutation of `Piece`/`Board` objects becomes explicit state passing:
  a board is a function from coordinates to optional pieces, and every
  mutation of an aliased piece is written back to the square that holds it;
* the mutual recursion `getPotentialMoves` -> `isKingInCheck` ->
  `getPotentialMoves` (through the castling gate) is unbounded in the source,
  so the embedding takes an explicit fuel parameter that is decremented when
  the castling gate consults the check helpers; fuel 0 yields no castling
  moves (the point where the source would diverge);
* decorative emoji prefixes of log strings are dropped.
Definitions marked `Modelled from the spec:` embed repository code that is
not part of this snapshot (only its declarations and UI callers are).
-/

namespace BattleChess

/-- Piece kinds, from PieceStats.ts (`PieceType`). -/
inductive PieceType
  | pawn | knight | bishop | rook | queen | king
deriving DecidableEq, Repr

/-- Sides, from PieceStats.ts (`PieceColor`). -/
inductive PieceColor
  | white | black
deriving DecidableEq, Repr

/-- Class system, from PieceStats.ts (`PieceClass`). -/
inductive PieceClass
  | melee | ranged | tank
deriving DecidableEq, Repr

/-- Terrain tiles, from Board.ts (`TileType`). -/
inductive TileType
  | normal | fire | water | forest
deriving DecidableEq, Repr

/-- Stats record, from PieceStats.ts (`PieceStats`); `dfn` embeds the field
`def`, which is a reserved word in Lean. -/
structure PieceStats where
  hp : Nat
  maxHP : Nat
  atk : Nat
  dfn : Nat
  rng : Nat
  pClass : PieceClass
deriving DecidableEq, Repr

/-- Status effect, from Piece.ts (`Buff`).  The source stores the reduction
`value` as a fraction in [0,1]; it is embedded as an integer percentage in
[0,100] (the one buff the program ships, 0.8, becomes 80). -/
structure Buff where
  id : String
  value : Nat
  duration : Nat
deriving DecidableEq, Repr

/-- A piece, from Piece.ts (`Piece`). -/
structure Piece where
  type : PieceType
  color : PieceColor
  stats : PieceStats
  x : Int
  y : Int
  id : String
  moveCount : Nat
  buffs : List Buff
deriving DecidableEq, Repr

/-- `DEFAULT_STATS` + `PIECE_MAX_HP` + `getStartingStats`, from PieceStats.ts. -/
def getStartingStats : PieceType → PieceStats
  | .pawn   => { hp := 20, maxHP := 20, atk := 6,  dfn := 1, rng := 1, pClass := .melee }
  | .knight => { hp := 45, maxHP := 45, atk := 15, dfn := 6, rng := 1, pClass := .melee }
  | .bishop => { hp := 25, maxHP := 25, atk := 14, dfn := 2, rng := 3, pClass := .ranged }
  | .rook   => { hp := 55, maxHP := 55, atk := 16, dfn := 9, rng := 1, pClass := .tank }
  | .queen  => { hp := 35, maxHP := 35, atk := 24, dfn := 2, rng := 3, pClass := .ranged }
  | .king   => { hp := 50, maxHP := 50, atk := 12, dfn := 5, rng := 1, pClass := .tank }

/-- `Piece.takeDamage`: hp is clamped at 0 (Nat subtraction). -/
def takeDamage (p : Piece) (damage : Nat) : Piece :=
  { p with stats := { p.stats with hp := p.stats.hp - damage } }

/-- `Piece.heal`: hp is capped at maxHP. -/
def heal (p : Piece) (amount : Nat) : Piece :=
  { p with stats := { p.stats with hp := min p.stats.maxHP (p.stats.hp + amount) } }

/-- `Piece.isAlive`. -/
def isAlive (p : Piece) : Bool :=
  decide (0 < p.stats.hp)

/-- `Piece.moveTo`: relocate and increment the move counter. -/
def moveTo (p : Piece) (x y : Int) : Piece :=
  { p with x := x, y := y, moveCount := p.moveCount + 1 }

/-- `Piece.addBuff`. -/
def addBuff (p : Piece) (b : Buff) : Piece :=
  { p with buffs := p.buffs ++ [b] }

/-- `Piece.tickBuffs`: decrement every duration, drop expired buffs. -/
def tickBuffs (p : Piece) : Piece :=
  let ticked := p.buffs.map (fun b => { b with duration := b.duration - 1 })
  { p with buffs := ticked.filter (fun b => decide (0 < b.duration)) }

/-- The raw `(Piece | null)[][]` grid MoveValidator works on; `g x y` embeds
`board[y][x]`. -/
def Grid := Int → Int → Option Piece

/-- Raw array write `board[y][x] = v` (no bounds check, as in the source
helpers that index after their own checks). -/
def updateGrid (g : Grid) (x y : Int) (v : Option Piece) : Grid :=
  fun a b => if a = x ∧ b = y then v else g a b

/-- The opposite side. -/
def enemyOf : PieceColor → PieceColor
  | .white => .black
  | .black => .white

/-- A generated move, from MoveValidator.ts (`ValidMove`). -/
structure ValidMove where
  x : Int
  y : Int
  isAttack : Bool
deriving DecidableEq, Repr

/-- The 64 board coordinates in the row-major order of the source's nested
`for (y) for (x)` loops; entries are `(x, y)` pairs. -/
def allCoords : List (Int × Int) :=
  (List.range 8).flatMap (fun y => (List.range 8).map (fun x => ((x : Int), (y : Int))))

/-- `addMoveIfValid` from `getPotentialMoves`: the generated move (if any) and
the may-continue flag used by `castRay`. -/
def addMoveIfValid (g : Grid) (c : PieceColor) (tx ty : Int) :
    Option ValidMove × Bool :=
  if tx < 0 ∨ 8 ≤ tx ∨ ty < 0 ∨ 8 ≤ ty then (none, false)
  else
    match g tx ty with
    | none => (some ⟨tx, ty, false⟩, true)
    | some q => if q.color ≠ c then (some ⟨tx, ty, true⟩, false) else (none, false)

/-- `castRay`: slide from `(x, y)` in direction `(dx, dy)` while
`addMoveIfValid` allows; the fuel bounds the loop (8 exceeds the board
diameter, so it never cuts an in-bounds ray short). -/
def castRay (g : Grid) (c : PieceColor) : Nat → Int → Int → Int → Int → List ValidMove
  | 0, _, _, _, _ => []
  | fuel + 1, x, y, dx, dy =>
    match addMoveIfValid g c (x + dx) (y + dy) with
    | (some m, true) => m :: castRay g c fuel (x + dx) (y + dy) dx dy
    | (some m, false) => [m]
    | (none, _) => []

/-- The knight's 8 offsets, in source order. -/
def knightOffsets : List (Int × Int) :=
  [(-2, -1), (-2, 1), (-1, -2), (-1, 2), (1, -2), (1, 2), (2, -1), (2, 1)]

/-- The king's 8 step offsets, in the order of the source's `dx`/`dy` loops. -/
def kingOffsets : List (Int × Int) :=
  [(-1, -1), (-1, 0), (-1, 1), (0, -1), (0, 1), (1, -1), (1, 0), (1, 1)]

/-- `isKingInCheck`, parametrized by the potential-move generator (the source
calls `getPotentialMoves` here, which is what forces the fuel). -/
def isKingInCheckWith (gen : Piece → Grid → List ValidMove)
    (color : PieceColor) (g : Grid) : Bool :=
  match allCoords.find? (fun pr =>
      match g pr.1 pr.2 with
      | some p => decide (p.type = PieceType.king) && decide (p.color = color)
      | none => false) with
  | none => true
  | some kingPos =>
    allCoords.any (fun pr =>
      match g pr.1 pr.2 with
      | some p =>
        decide (p.color = enemyOf color) && isAlive p &&
          (gen p g).any (fun m => decide (m.x = kingPos.1) && decide (m.y = kingPos.2))
      | none => false)

/-- `isPositionUnderAttack`, parametrized like `isKingInCheckWith`. -/
def isPositionUnderAttackWith (gen : Piece → Grid → List ValidMove)
    (color : PieceColor) (y x : Int) (g : Grid) : Bool :=
  allCoords.any (fun pr =>
    match g pr.1 pr.2 with
    | some p =>
      decide (p.color = enemyOf color) && isAlive p &&
        (gen p g).any (fun m => decide (m.x = x) && decide (m.y = y))
    | none => false)

/-- The body of `getPotentialMoves`; `castleGen` is the generator the castling
gate's check helpers recurse into (`none` means the fuel ran out, where the
source would diverge: no castling moves are produced). -/
def getPotentialMovesBody (castleGen : Option (Piece → Grid → List ValidMove))
    (piece : Piece) (g : Grid) : List ValidMove :=
  let x := piece.x
  let y := piece.y
  let color := piece.color
  match piece.type with
  | .pawn =>
    let direction : Int := if color = .white then -1 else 1
    let startRow : Int := if color = .white then 6 else 1
    let forward :=
      if 0 ≤ y + direction ∧ y + direction < 8 then
        match g x (y + direction) with
        | none =>
          ⟨x, y + direction, false⟩ ::
            (if y = startRow then
              match g x (y + 2 * direction) with
              | none => [⟨x, y + 2 * direction, false⟩]
              | some _ => []
            else [])
        | some _ => []
      else []
    let captures := ([(-1, direction), (1, direction)] : List (Int × Int)).filterMap
      (fun d =>
        let tx := x + d.1
        let ty := y + d.2
        if 0 ≤ tx ∧ tx < 8 ∧ 0 ≤ ty ∧ ty < 8 then
          match g tx ty with
          | some target => if target.color ≠ color then some ⟨tx, ty, true⟩ else none
          | none => none
        else none)
    forward ++ captures
  | .knight =>
    knightOffsets.filterMap (fun d => (addMoveIfValid g color (x + d.1) (y + d.2)).1)
  | .bishop =>
    ([(-1, -1), (-1, 1), (1, -1), (1, 1)] : List (Int × Int)).flatMap
      (fun d => castRay g color 8 x y d.1 d.2)
  | .rook =>
    ([(0, 1), (0, -1), (1, 0), (-1, 0)] : List (Int × Int)).flatMap
      (fun d => castRay g color 8 x y d.1 d.2)
  | .queen =>
    ([(-1, -1), (-1, 1), (1, -1), (1, 1), (0, 1), (0, -1), (1, 0), (-1, 0)] :
        List (Int × Int)).flatMap
      (fun d => castRay g color 8 x y d.1 d.2)
  | .king =>
    let normal := kingOffsets.filterMap
      (fun d => (addMoveIfValid g color (x + d.1) (y + d.2)).1)
    let castleRow : Int := if color = .white then 7 else 0
    let castling :=
      match castleGen with
      | none => []
      | some gen =>
        if y = castleRow ∧ piece.moveCount = 0 ∧
            isKingInCheckWith gen color g = false then
          let kingside :=
            match g 7 castleRow with
            | some rightRook =>
              if rightRook.type = PieceType.rook ∧ rightRook.color = color ∧
                  rightRook.moveCount = 0 ∧ g 5 castleRow = none ∧
                  g 6 castleRow = none ∧
                  isPositionUnderAttackWith gen color castleRow 5 g = false ∧
                  isPositionUnderAttackWith gen color castleRow 6 g = false then
                [(⟨6, castleRow, false⟩ : ValidMove)]
              else []
            | none => []
          let queenside :=
            match g 0 castleRow with
            | some leftRook =>
              if leftRook.type = PieceType.rook ∧ leftRook.color = color ∧
                  leftRook.moveCount = 0 ∧ g 1 castleRow = none ∧
                  g 2 castleRow = none ∧ g 3 castleRow = none ∧
                  isPositionUnderAttackWith gen color castleRow 2 g = false ∧
                  isPositionUnderAttackWith gen color castleRow 3 g = false then
                [(⟨2, castleRow, false⟩ : ValidMove)]
              else []
            | none => []
          kingside ++ queenside
        else []
    normal ++ castling

/-- `getPotentialMoves` with a fuel bound on the castling recursion depth. -/
def getPotentialMoves : Nat → Piece → Grid → List ValidMove
  | 0 => fun piece g => getPotentialMovesBody none piece g
  | fuel + 1 => fun piece g =>
    getPotentialMovesBody (some (getPotentialMoves fuel)) piece g

/-- `isKingInCheck` at a given fuel. -/
def isKingInCheck (fuel : Nat) : PieceColor → Grid → Bool :=
  isKingInCheckWith (getPotentialMoves fuel)

/-- `isPositionUnderAttack` at a given fuel. -/
def isPositionUnderAttack (fuel : Nat) : PieceColor → Int → Int → Grid → Bool :=
  isPositionUnderAttackWith (getPotentialMoves fuel)

/-- `simulateMove`: clear the origin, place a clone of the mover (with updated
coordinates) on the target square. -/
def simulateMove (g : Grid) (piece : Piece) (move : ValidMove) : Grid :=
  updateGrid (updateGrid g piece.x piece.y none) move.x move.y
    (some { piece with x := move.x, y := move.y })

/-- `getValidMoves`: potential moves filtered by the simulated-check test. -/
def getValidMoves (fuel : Nat) (piece : Piece) (g : Grid) : List ValidMove :=
  (getPotentialMoves fuel piece g).filter
    (fun move => !(isKingInCheck fuel piece.color (simulateMove g piece move)))

/-- The enum string of a piece type (the enum values of `PieceType` in
PieceStats.ts are these lowercase strings). -/
def typeName : PieceType → String
  | .pawn => "pawn"
  | .knight => "knight"
  | .bishop => "bishop"
  | .rook => "rook"
  | .queen => "queen"
  | .king => "king"

/-- The engine's board, from Board.ts (`Board`): the piece grid plus the
terrain overlay (terrain is generated randomly once; it is left abstract
here). -/
structure Board where
  squares : Grid
  terrain : Int → Int → TileType

/-- `Board.getPieceAt`: bounds-checked lookup. -/
def getPieceAt (b : Board) (x y : Int) : Option Piece :=
  if 0 ≤ x ∧ x < 8 ∧ 0 ≤ y ∧ y < 8 then b.squares x y else none

/-- `Board.getTileType`: bounds-checked lookup, `normal` out of range. -/
def getTileType (b : Board) (x y : Int) : TileType :=
  if 0 ≤ x ∧ x < 8 ∧ 0 ≤ y ∧ y < 8 then b.terrain x y else TileType.normal

/-- `Board.setPieceAt`: bounds-checked write, no-op out of range. -/
def setPieceAt (b : Board) (x y : Int) (piece : Option Piece) : Board :=
  if 0 ≤ x ∧ x < 8 ∧ 0 ≤ y ∧ y < 8 then
    { b with squares := updateGrid b.squares x y piece }
  else b

/-- `Board.getAlivePieces`, in row-major scan order. -/
def getAlivePieces (b : Board) : List Piece :=
  allCoords.filterMap (fun pr =>
    match b.squares pr.1 pr.2 with
    | some p => if isAlive p then some p else none
    | none => none)

/-- `Board.getPiecesByColor`, in row-major scan order. -/
def getPiecesByColor (b : Board) (color : PieceColor) : List Piece :=
  allCoords.filterMap (fun pr =>
    match b.squares pr.1 pr.2 with
    | some p => if p.color = color then some p else none
    | none => none)

/-- `Board.isGameOver`: over iff a side has no living King; the pair is
(gameOver, winner). -/
def isGameOver (b : Board) : Bool × Option PieceColor :=
  let whiteKingAlive := (getPiecesByColor b .white).any
    (fun p => decide (p.type = PieceType.king) && isAlive p)
  let blackKingAlive := (getPiecesByColor b .black).any
    (fun p => decide (p.type = PieceType.king) && isAlive p)
  if whiteKingAlive = false then (true, some .black)
  else if blackKingAlive = false then (true, some .white)
  else (false, none)

/-- `calculateDamage` from CombatSystem.ts.  `Math.floor(damage * 1.3)` and
`Math.floor(damage * 0.8)` are embedded as `damage * 13 / 10` and
`damage * 8 / 10` (exact over every reachable magnitude, see the header). -/
def calculateDamage (attacker defender : Piece) (board : Option Board) : Nat :=
  let defenderDef := defender.stats.dfn +
    (match board with
     | some b => if getTileType b defender.x defender.y = TileType.forest then 3 else 0
     | none => 0)
  let damage0 := attacker.stats.atk
  let damage1 :=
    if attacker.stats.pClass = PieceClass.ranged ∧ defender.stats.pClass = PieceClass.tank then
      damage0 * 13 / 10
    else if attacker.stats.pClass = PieceClass.tank ∧ defender.stats.pClass = PieceClass.melee then
      damage0 * 13 / 10
    else if attacker.stats.pClass = PieceClass.melee ∧ defender.stats.pClass = PieceClass.ranged then
      damage0 * 13 / 10
    else damage0
  let distance := max (attacker.x - defender.x).natAbs (attacker.y - defender.y).natAbs
  let damage2 := if 1 < distance then damage1 * 8 / 10 else damage1
  max (damage2 - defenderDef) 1

/-- Combat outcome record, from CombatSystem.ts (`CombatResult`). -/
structure CombatResult where
  attacker : Piece
  defender : Piece
  attackDamage : Nat
  defenderCounterDamage : Nat
  defenderAlive : Bool
  log : List String
deriving DecidableEq, Repr

/-- The `bonusTxt` tag of `resolveCombat` (the source's three separate `if`s
have mutually exclusive conditions, so the chain is equivalent). -/
def bonusTxt (attacker defender : Piece) : String :=
  if attacker.stats.pClass = PieceClass.ranged ∧ defender.stats.pClass = PieceClass.tank then
    " (Crit vs Tank!)"
  else if attacker.stats.pClass = PieceClass.tank ∧ defender.stats.pClass = PieceClass.melee then
    " (Crit vs Melee!)"
  else if attacker.stats.pClass = PieceClass.melee ∧ defender.stats.pClass = PieceClass.ranged then
    " (Crit vs Ranged!)"
  else ""

/-- `resolveCombat` from CombatSystem.ts: the attacker strikes first; the
defender counters only if still alive and within its attack range of the
attacker.  The returned `attacker`/`defender` are the post-combat states of
the two (in-place mutated) pieces. -/
def resolveCombat (attacker defender : Piece) (board : Option Board) : CombatResult :=
  let attackDamage := calculateDamage attacker defender board
  let defender1 := takeDamage defender attackDamage
  let log1 := [typeName attacker.type ++ " attacks " ++ typeName defender.type ++
    " for " ++ toString attackDamage ++ bonusTxt attacker defender]
  let dist := max (attacker.x - defender.x).natAbs (attacker.y - defender.y).natAbs
  if isAlive defender1 then
    if dist ≤ defender1.stats.rng then
      let counterDamage := calculateDamage defender1 attacker board
      let attacker1 := takeDamage attacker counterDamage
      { attacker := attacker1, defender := defender1, attackDamage := attackDamage,
        defenderCounterDamage := counterDamage, defenderAlive := isAlive defender1,
        log := log1 ++ [typeName defender.type ++ " counters for " ++ toString counterDamage] }
    else
      { attacker := attacker, defender := defender1, attackDamage := attackDamage,
        defenderCounterDamage := 0, defenderAlive := isAlive defender1,
        log := log1 ++ [typeName defender.type ++ " out of range to counter!"] }
  else
    { attacker := attacker, defender := defender1, attackDamage := attackDamage,
      defenderCounterDamage := 0, defenderAlive := isAlive defender1,
      log := log1 ++ [typeName defender.type ++ " is defeated!"] }

/-- The per-piece body of `applyEnvironmentalEffects`: Fire deals a fixed 10
damage, Water heals 5 when below max HP, other tiles do nothing. -/
def envEffect (tile : TileType) (p : Piece) : Piece :=
  match tile with
  | .fire => takeDamage p 10
  | .water => if p.stats.hp < p.stats.maxHP then heal p 5 else p
  | _ => p

/-- `applyEnvironmentalEffects` from CombatSystem.ts: every piece of the list
is updated by the tile it stands on (the source mutates the pieces in place
and returns a log; the log is elided). -/
def applyEnvironmentalEffects (pieces : List Piece) (b : Board) : List Piece :=
  pieces.map (fun p => envEffect (getTileType b p.x p.y) p)

/-- The ally filter of `applySpecialAbilities` (the caller passes only living
pieces, via `getAlivePieces`). -/
def isInspiredAlly (piece p : Piece) : Bool :=
  decide (p.color = piece.color) && !(decide (p.id = piece.id)) &&
    decide ((p.x - piece.x).natAbs ≤ 1) && decide ((p.y - piece.y).natAbs ≤ 1)

/-- `applySpecialAbilities` from CombatSystem.ts, log part: a King inspires
(+5 HP) all adjacent living allies. -/
def applySpecialAbilities (piece : Piece) (allPieces : List Piece) : List String :=
  if piece.type = PieceType.king ∧
      (allPieces.filter (isInspiredAlly piece)) ≠ [] then
    ["King inspires allies (+5 HP)"]
  else []

/-- The board effect of `applySpecialAbilities` when called by the engine on
`getAlivePieces`: the healed allies are aliases of the board's cells, so each
living cell passing the ally filter gains 5 HP. -/
def kingAuraBoard (piece : Piece) (b : Board) : Board :=
  if piece.type = PieceType.king then
    { b with squares := fun x y =>
        match b.squares x y with
        | some p => some (if isAlive p && isInspiredAlly piece p then heal p 5 else p)
        | none => none }
  else b

/-- The enum string of a side (`PieceColor` values in PieceStats.ts). -/
def colorName : PieceColor → String
  | .white => "white"
  | .black => "black"

/-- Game status, from GameEngine.ts (`GameStatus`). -/
inductive GameStatus
  | waiting | inProgress | gameOver
deriving DecidableEq, Repr

/-- Game mode, from GameEngine.ts (`GameMode`). -/
inductive GameMode
  | singlePlayer | multiplayer | twoPlayer
deriving DecidableEq, Repr

/-- One entry of `moveHistory`, from GameEngine.ts. -/
structure HistoryEntry where
  fromX : Int
  fromY : Int
  toX : Int
  toY : Int
  capturedPiece : Option Piece
  combatResult : Option CombatResult
deriving DecidableEq, Repr

/-- The engine's mutable state, from GameEngine.ts (`GameEngine` fields). -/
structure GameState where
  board : Board
  currentTurn : PieceColor
  gameStatus : GameStatus
  gameMode : GameMode
  selectedPiece : Option Piece
  validMoves : List ValidMove
  combatLog : List String
  moveHistory : List HistoryEntry
  turnCount : Nat

/-- `GameEngine.endTurn` (the asynchronous AI scheduling of single-player
mode is an external effect and is elided): bump the turn counter, flip the
active side. -/
def endTurn (s : GameState) : GameState :=
  { s with turnCount := s.turnCount + 1, currentTurn := enemyOf s.currentTurn }

/-- `GameEngine.selectPiece`: cache the selection and its legal moves;
selecting an empty, foreign or dead square clears the selection.  `fuel`
bounds the castling recursion of `getValidMoves`. -/
def selectPiece (s : GameState) (fuel : Nat) (x y : Int) :
    List ValidMove × GameState :=
  match getPieceAt s.board x y with
  | some piece =>
    if piece.color = s.currentTurn ∧ isAlive piece then
      let moves := getValidMoves fuel piece s.board.squares
      (moves, { s with selectedPiece := some piece, validMoves := moves })
    else ([], { s with selectedPiece := none, validMoves := [] })
  | none => ([], { s with selectedPiece := none, validMoves := [] })

/-- `GameEngine.deselectPiece`. -/
def deselectPiece (s : GameState) : GameState :=
  { s with selectedPiece := none, validMoves := [] }

/-- `GameEngine.executeMove`.  The result is `(returned value, new state)`;
failure returns `(false, s)` with the state untouched.  In-place mutations of
the aliased attacker/defender objects are written back to the squares that
hold them. -/
def executeMove (s : GameState) (toX toY : Int) : Bool × GameState :=
  match s.selectedPiece with
  | none => (false, s)
  | some attacker =>
    match s.validMoves.find? (fun m => decide (m.x = toX) && decide (m.y = toY)) with
    | none => (false, s)
    | some move =>
      let fromX := attacker.x
      let fromY := attacker.y
      let target := getPieceAt s.board toX toY
      -- (board after the branch, attacker object after the branch,
      --  branch log, combat result, defenderDied)
      let step : Board × Piece × List String × Option CombatResult × Bool :=
        if attacker.type = PieceType.king ∧ (toX - fromX).natAbs = 2 then
          -- castling: relocate the rook, then the king moves normally
          let rookStep : Board × List String :=
            if fromX < toX then
              match getPieceAt s.board 7 fromY with
              | some rook =>
                (setPieceAt (setPieceAt s.board 7 fromY none) 5 fromY
                  (some (moveTo rook 5 fromY)),
                 [colorName attacker.color ++ " King castles (Kingside)!"])
              | none => (s.board, [])
            else
              match getPieceAt s.board 0 fromY with
              | some rook =>
                (setPieceAt (setPieceAt s.board 0 fromY none) 3 fromY
                  (some (moveTo rook 3 fromY)),
                 [colorName attacker.color ++ " King castles (Queenside)!"])
              | none => (s.board, [])
          let moved := moveTo attacker toX toY
          (setPieceAt (setPieceAt rookStep.1 fromX fromY none) toX toY (some moved),
            moved, rookStep.2, none, false)
        else
          match target with
          | some t =>
            if move.isAttack then
              -- combat resolves before any movement
              let cr := resolveCombat attacker t none
              if isAlive cr.defender = false then
                -- defender dies; the attacker advances only if it survived
                let b1 := setPieceAt s.board toX toY none
                if isAlive cr.attacker then
                  let moved := moveTo cr.attacker toX toY
                  (setPieceAt (setPieceAt b1 fromX fromY none) toX toY (some moved),
                    moved, cr.log, some cr, true)
                else
                  (setPieceAt b1 fromX fromY none, cr.attacker, cr.log, some cr, true)
              else
                -- defender holds the square; attacker stays unless it died
                let b1 := setPieceAt s.board toX toY (some cr.defender)
                if isAlive cr.attacker = false then
                  (setPieceAt b1 fromX fromY none, cr.attacker, cr.log, some cr, false)
                else
                  (setPieceAt b1 fromX fromY (some cr.attacker), cr.attacker,
                    cr.log, some cr, false)
            else
              let moved := moveTo attacker toX toY
              (setPieceAt (setPieceAt s.board fromX fromY none) toX toY (some moved),
                moved, [], none, false)
          | none =>
            let moved := moveTo attacker toX toY
            (setPieceAt (setPieceAt s.board fromX fromY none) toX toY (some moved),
              moved, [], none, false)
      let board1 := step.1
      let attackerFinal := step.2.1
      let branchLog := step.2.2.1
      let combatResult := step.2.2.2.1
      let defenderDied := step.2.2.2.2
      let abilityLog := applySpecialAbilities attackerFinal (getAlivePieces board1)
      let board2 := kingAuraBoard attackerFinal board1
      let entry : HistoryEntry :=
        { fromX := fromX
          fromY := fromY
          toX := toX
          toY := toY
          capturedPiece :=
            if defenderDied then
              (match combatResult with | some cr => some cr.defender | none => none)
            else none
          combatResult := combatResult }
      let s1 : GameState :=
        { s with
          board := board2
          combatLog := branchLog ++ abilityLog
          moveHistory := s.moveHistory ++ [entry]
          selectedPiece := none
          validMoves := [] }
      let go := isGameOver board2
      if go.1 then
        (true, { s1 with
          gameStatus := .gameOver
          combatLog := s1.combatLog ++
            ["\n" ++ (match go.2 with | some c => colorName c | none => "null") ++
              " WINS!"] })
      else
        (true, endTurn s1)

/-- Modelled from the spec: the extended status set of the turn state machine
(§4.4).  The `KingRescuePending` state and the code reaching it are not part
of this snapshot (only the `KingRescueModal` UI caller is). -/
inductive EngineStatus
  | inProgress | gameOver | kingRescuePending
deriving DecidableEq, Repr

/-- Whether a side has at least one legal move over its living pieces. -/
def hasAnyLegalMove (fuel : Nat) (color : PieceColor) (b : Board) : Bool :=
  (getAlivePieces b).any (fun p =>
    decide (p.color = color) && !(getValidMoves fuel p b.squares).isEmpty)

/-- Modelled from the spec: the trap/rescue evaluation `endTurn` performs for
the newly active side (§4.4); this code is not part of this snapshot.  If the
newly active side has zero legal moves across its living pieces, its King is
in check, and its one-shot rescue is still available, the status becomes
`KingRescuePending`; otherwise play continues. -/
def endTurnRescueStatus (fuel : Nat) (b : Board) (newSide : PieceColor)
    (rescueAvailable : PieceColor → Bool) : EngineStatus :=
  if hasAnyLegalMove fuel newSide b = false ∧
      isKingInCheck fuel newSide b.squares = true ∧
      rescueAvailable newSide = true then
    .kingRescuePending
  else .inProgress

/-- Modelled from the spec: the engine's post-move environmental step (§4.4),
not part of this snapshot (src's `executeMove` never calls
`applyEnvironmentalEffects`).  Every living piece is updated by
`applyEnvironmentalEffects`' per-piece effect, then the board is swept,
removing every piece whose HP is now 0. -/
def environmentStep (b : Board) : Board :=
  let b1 : Board :=
    { b with squares := fun x y =>
        match b.squares x y with
        | some p => some (if isAlive p then envEffect (getTileType b p.x p.y) p else p)
        | none => none }
  { b1 with squares := fun x y =>
      match b1.squares x y with
      | some p => if isAlive p then some p else none
      | none => none }

/-- The damage pipeline of `calculateDamage` without the final floor at 1:
modified attack minus effective defense (truncated at 0). -/
def rawDamage (attacker defender : Piece) (board : Option Board) : Nat :=
  let defenderDef := defender.stats.dfn +
    (match board with
     | some b => if getTileType b defender.x defender.y = TileType.forest then 3 else 0
     | none => 0)
  let damage0 := attacker.stats.atk
  let damage1 :=
    if attacker.stats.pClass = PieceClass.ranged ∧ defender.stats.pClass = PieceClass.tank then
      damage0 * 13 / 10
    else if attacker.stats.pClass = PieceClass.tank ∧ defender.stats.pClass = PieceClass.melee then
      damage0 * 13 / 10
    else if attacker.stats.pClass = PieceClass.melee ∧ defender.stats.pClass = PieceClass.ranged then
      damage0 * 13 / 10
    else damage0
  let distance := max (attacker.x - defender.x).natAbs (attacker.y - defender.y).natAbs
  let damage2 := if 1 < distance then damage1 * 8 / 10 else damage1
  damage2 - defenderDef

/-- Modelled from the spec: reduction of incoming raw damage by the target's
damage-reduction buffs (§4.3); the buff-consuming damage path is not part of
this snapshot.  Buff magnitudes are integer percentages. -/
def buffReduce (damage : Nat) (buffs : List Buff) : Nat :=
  buffs.foldl (fun d b => d * (100 - b.value) / 100) damage

/-- Modelled from the spec: buff-aware damage — apply the target's buff
reduction to the raw damage, then floor at 1 (§4.3). -/
def calculateDamageBuffed (attacker defender : Piece) (board : Option Board) : Nat :=
  max (buffReduce (rawDamage attacker defender board) defender.buffs) 1

/-- Modelled from the spec: combat resolution with buff-aware damage on both
strikes (§4.3); identical to `resolveCombat` except that each strike's damage
is `calculateDamageBuffed` against the strike's target. -/
def resolveCombatBuffed (attacker defender : Piece) (board : Option Board) :
    CombatResult :=
  let attackDamage := calculateDamageBuffed attacker defender board
  let defender1 := takeDamage defender attackDamage
  let log1 := [typeName attacker.type ++ " attacks " ++ typeName defender.type ++
    " for " ++ toString attackDamage ++ bonusTxt attacker defender]
  let dist := max (attacker.x - defender.x).natAbs (attacker.y - defender.y).natAbs
  if isAlive defender1 then
    if dist ≤ defender1.stats.rng then
      let counterDamage := calculateDamageBuffed defender1 attacker board
      let attacker1 := takeDamage attacker counterDamage
      { attacker := attacker1, defender := defender1, attackDamage := attackDamage,
        defenderCounterDamage := counterDamage, defenderAlive := isAlive defender1,
        log := log1 ++ [typeName defender.type ++ " counters for " ++ toString counterDamage] }
    else
      { attacker := attacker, defender := defender1, attackDamage := attackDamage,
        defenderCounterDamage := 0, defenderAlive := isAlive defender1,
        log := log1 ++ [typeName defender.type ++ " out of range to counter!"] }
  else
    { attacker := attacker, defender := defender1, attackDamage := attackDamage,
      defenderCounterDamage := 0, defenderAlive := isAlive defender1,
      log := log1 ++ [typeName defender.type ++ " is defeated!"] }

/-- The 80% / 3-turn buff the rescue abilities grant (spec §4.4, and the
`KingRescueModal` caller's description). -/
def rescueBuff : Buff := { id := "rescue", value := 80, duration := 3 }

/-- Modelled from the spec: the Teleport branch of `executeAbilityAction`
(§4.4), not part of this snapshot.  Requires an empty in-bounds target;
relocates the King (incrementing its move counter) and grants the rescue
buff. -/
def executeTeleport (b : Board) (king : Piece) (x y : Int) : Option Board :=
  if getPieceAt b x y = none ∧ 0 ≤ x ∧ x < 8 ∧ 0 ≤ y ∧ y < 8 then
    some (setPieceAt (setPieceAt b king.x king.y none) x y
      (some (addBuff (moveTo king x y) rescueBuff)))
  else none

/-- Modelled from the spec: the Swap branch of `executeAbilityAction` (§4.4),
not part of this snapshot.  Requires a living ally (not the King) on the
target square; exchanges the two pieces' positions, incrementing both move
counters, and grants the King the rescue buff. -/
def executeSwap (b : Board) (king : Piece) (x y : Int) : Option Board :=
  match getPieceAt b x y with
  | some ally =>
    if isAlive ally = true ∧ ally.color = king.color ∧ ally.type ≠ PieceType.king then
      some (setPieceAt (setPieceAt b x y (some (addBuff (moveTo king x y) rescueBuff)))
        king.x king.y (some (moveTo ally king.x king.y)))
    else none
  | none => none

/-- The damage formula in the specification's words (§4.3): base attack; a
1.3x multiplier, truncated, when the attacker's class beats the defender's
under the three fixed pairs; a 0.8x penalty, truncated, when the Chebyshev
distance exceeds 1; effective defense is the defender's defense plus 3 on a
Forest tile; the result floors at 1. -/
def specDamage (attacker defender : Piece) (board : Option Board) : Nat :=
  let base := attacker.stats.atk
  let advantaged :=
    if (attacker.stats.pClass = PieceClass.ranged ∧ defender.stats.pClass = PieceClass.tank) ∨
        (attacker.stats.pClass = PieceClass.tank ∧ defender.stats.pClass = PieceClass.melee) ∨
        (attacker.stats.pClass = PieceClass.melee ∧ defender.stats.pClass = PieceClass.ranged) then
      base * 13 / 10
    else base
  let chebyshev := max (attacker.x - defender.x).natAbs (attacker.y - defender.y).natAbs
  let withPenalty := if 1 < chebyshev then advantaged * 8 / 10 else advantaged
  let effectiveDefense := defender.stats.dfn +
    (match board with
     | some b => if getTileType b defender.x defender.y = TileType.forest then 3 else 0
     | none => 0)
  max (withPenalty - effectiveDefense) 1

/-- The identity-and-move-counter projection of a square's content, used to
state which squares an executed move may change. -/
def idmc : Option Piece → Option (String × Nat) :=
  Option.map (fun p => (p.id, p.moveCount))

/-- A fresh piece, as the `Piece` constructor builds one. -/
def mkPiece (t : PieceType) (c : PieceColor) (x y : Int) (id : String) : Piece :=
  { type := t, color := c, stats := getStartingStats t, x := x, y := y,
    id := id, moveCount := 0, buffs := [] }

/-- Fixture: a small position (both kings already moved) with a white pawn on
its home rank. -/
def pawnGrid : Grid := fun x y =>
  if x = 4 ∧ y = 6 then some (mkPiece .pawn .white 4 6 "wp")
  else if x = 4 ∧ y = 7 then some { mkPiece .king .white 4 7 "wk" with moveCount := 1 }
  else if x = 4 ∧ y = 0 then some { mkPiece .king .black 4 0 "bk" with moveCount := 1 }
  else none

/-- Fixture: a checkmated position — the white King in the corner, a
protected black Queen adjacent; White has no legal move and is in check. -/
def mateBoard : Board :=
  { squares := fun x y =>
      if x = 0 ∧ y = 7 then some { mkPiece .king .white 0 7 "wk" with moveCount := 1 }
      else if x = 1 ∧ y = 6 then some (mkPiece .queen .black 1 6 "bq")
      else if x = 2 ∧ y = 5 then some { mkPiece .king .black 2 5 "bk" with moveCount := 1 }
      else none
    terrain := fun _ _ => TileType.normal }

/-- Fixture: a board whose castling conditions hold on the king side for
White (unmoved King and rook, empty and unattacked path). -/
def castleGrid : Grid := fun x y =>
  if x = 4 ∧ y = 7 then some (mkPiece .king .white 4 7 "wk")
  else if x = 7 ∧ y = 7 then some (mkPiece .rook .white 7 7 "wr")
  else if x = 4 ∧ y = 0 then some { mkPiece .king .black 4 0 "bk" with moveCount := 1 }
  else none

/-- Fixture: a white pawn about to capture an adjacent black pawn (the
specification's end-to-end scenario). -/
def attackState : GameState :=
  { board :=
      { squares := fun x y =>
          if x = 4 ∧ y = 6 then some (mkPiece .pawn .white 4 6 "wp")
          else if x = 3 ∧ y = 5 then some (mkPiece .pawn .black 3 5 "bp")
          else if x = 0 ∧ y = 7 then some { mkPiece .king .white 0 7 "wk" with moveCount := 1 }
          else if x = 7 ∧ y = 0 then some { mkPiece .king .black 7 0 "bk" with moveCount := 1 }
          else none
        terrain := fun _ _ => TileType.normal }
    currentTurn := .white
    gameStatus := .inProgress
    gameMode := .twoPlayer
    selectedPiece := some (mkPiece .pawn .white 4 6 "wp")
    validMoves := [⟨3, 5, true⟩, ⟨4, 5, false⟩]
    combatLog := []
    moveHistory := []
    turnCount := 1 }

/-- Fixture: the same position with nothing selected. -/
def idleState : GameState :=
  { attackState with selectedPiece := none, validMoves := [] }

/-- Fixture: a board with a lone damaged pawn (19/20 HP) on a Water tile. -/
def waterBoard : Board :=
  { squares := fun x y =>
      if x = 4 ∧ y = 4 then
        some { mkPiece .pawn .white 4 4 "wp" with
          stats := { getStartingStats .pawn with hp := 19 } }
      else none
    terrain := fun x y => if x = 4 ∧ y = 4 then TileType.water else TileType.normal }

/-- Fixture: a board with a healthy and a nearly dead pawn on Fire tiles. -/
def fireBoard : Board :=
  { squares := fun x y =>
      if x = 2 ∧ y = 4 then some (mkPiece .pawn .white 2 4 "wp1")
      else if x = 5 ∧ y = 4 then
        some { mkPiece .pawn .white 5 4 "wp2" with
          stats := { getStartingStats .pawn with hp := 7 } }
      else none
    terrain := fun _ y => if y = 4 then TileType.fire else TileType.normal }

/-- Fixture: a defender carrying an 80% damage-reduction buff. -/
def buffedPawn : Piece :=
  { mkPiece .pawn .black 4 5 "bp" with buffs := [rescueBuff] }

/-- Fixture: a lone white King for the rescue-ability models. -/
def rescueBoard : Board :=
  { squares := fun x y =>
      if x = 0 ∧ y = 7 then some { mkPiece .king .white 0 7 "wk" with moveCount := 1 }
      else if x = 3 ∧ y = 7 then some { mkPiece .rook .white 3 7 "wr" with moveCount := 2 }
      else none
    terrain := fun _ _ => TileType.normal }

/-! Helper lemmas. -/

theorem takeDamage_zero (p : Piece) : takeDamage p 0 = p := by
  simp [takeDamage]

theorem takeDamage_id (p : Piece) (k : Nat) : (takeDamage p k).id = p.id := rfl

theorem takeDamage_hp (p : Piece) (k : Nat) :
    (takeDamage p k).stats.hp = p.stats.hp - k := rfl

/-- `calculateDamage` is the raw pipeline floored at 1. -/
theorem calculateDamage_eq_raw (a d : Piece) (ob : Option Board) :
    calculateDamage a d ob = max (rawDamage a d ob) 1 := rfl

/-- One buff-reduction step never increases the damage. -/
theorem buffReduce_step_le (d : Nat) (b : Buff) : d * (100 - b.value) / 100 ≤ d := by
  calc d * (100 - b.value) / 100 ≤ d * 100 / 100 :=
        Nat.div_le_div_right (Nat.mul_le_mul_left d (Nat.sub_le 100 b.value))
    _ = d := Nat.mul_div_cancel d (by omega)

/-- Buff reduction never increases the damage. -/
theorem buffReduce_le (l : List Buff) : ∀ d : Nat, buffReduce d l ≤ d := by
  induction l with
  | nil => intro d; exact Nat.le_refl d
  | cons b l ih =>
    intro d
    calc buffReduce d (b :: l) = buffReduce (d * (100 - b.value) / 100) l := rfl
      _ ≤ d * (100 - b.value) / 100 := ih _
      _ ≤ d := buffReduce_step_le d b

/-! Claim theorems. -/

/-- Claim C1: every move returned by `getValidMoves`, simulated on the board,
leaves the moving side's own King out of check (at every castling-recursion
fuel). -/
theorem getValidMoves_never_leaves_king_in_check (fuel : Nat) (p : Piece)
    (g : Grid) (m : ValidMove) (h : m ∈ getValidMoves fuel p g) :
    isKingInCheck fuel p.color (simulateMove g p m) = false := by
  unfold getValidMoves at h
  simpa using (List.mem_filter.mp h).2

/-- Witness for C1: a concrete pawn move is legal and its simulation leaves
the white King out of check. -/
theorem getValidMoves_never_leaves_king_in_check_witness :
    (⟨4, 5, false⟩ : ValidMove) ∈ getValidMoves 1 (mkPiece .pawn .white 4 6 "wp") pawnGrid ∧
    isKingInCheck 1 PieceColor.white
      (simulateMove pawnGrid (mkPiece .pawn .white 4 6 "wp") ⟨4, 5, false⟩) = false :=
  ⟨by decide,
    getValidMoves_never_leaves_king_in_check 1 (mkPiece .pawn .white 4 6 "wp")
      pawnGrid ⟨4, 5, false⟩ (by decide)⟩

/-- Claim C2: the damage computation equals the specification's reference
formula, and damage is always at least 1. -/
theorem calculateDamage_matches_reference (a d : Piece) (ob : Option Board) :
    calculateDamage a d ob = specDamage a d ob ∧ 1 ≤ calculateDamage a d ob := by
  constructor
  · simp only [calculateDamage, specDamage]
    split_ifs <;> first | rfl | tauto
  · exact Nat.le_max_right _ 1

/-- Claim C4: the attacker strikes first; the defender counters exactly when
it is still alive after the strike and the attacker is within its attack
range, otherwise the counter-damage is 0 and (if it survived out of range)
the log records "out of range". -/
theorem resolveCombat_counter_gating (a d : Piece) (ob : Option Board) :
    (resolveCombat a d ob).attackDamage = calculateDamage a d ob ∧
    (resolveCombat a d ob).defender = takeDamage d (calculateDamage a d ob) ∧
    ((isAlive (takeDamage d (calculateDamage a d ob)) = true ∧
        max (a.x - d.x).natAbs (a.y - d.y).natAbs ≤ d.stats.rng) →
      (resolveCombat a d ob).defenderCounterDamage =
        calculateDamage (takeDamage d (calculateDamage a d ob)) a ob) ∧
    (¬ (isAlive (takeDamage d (calculateDamage a d ob)) = true ∧
        max (a.x - d.x).natAbs (a.y - d.y).natAbs ≤ d.stats.rng) →
      (resolveCombat a d ob).defenderCounterDamage = 0) ∧
    (resolveCombat a d ob).attacker.stats.hp =
      a.stats.hp - (resolveCombat a d ob).defenderCounterDamage ∧
    ((isAlive (takeDamage d (calculateDamage a d ob)) = true ∧
        ¬ max (a.x - d.x).natAbs (a.y - d.y).natAbs ≤ d.stats.rng) →
      (typeName d.type ++ " out of range to counter!") ∈ (resolveCombat a d ob).log) := by
  have hrng : (takeDamage d (calculateDamage a d ob)).stats.rng = d.stats.rng := rfl
  by_cases h1 : isAlive (takeDamage d (calculateDamage a d ob)) = true
  · by_cases h2 : max (a.x - d.x).natAbs (a.y - d.y).natAbs ≤ d.stats.rng
    · simp only [resolveCombat, hrng]
      rw [if_pos h1, if_pos h2]
      exact ⟨rfl, rfl, fun _ => rfl, fun hc => absurd ⟨h1, h2⟩ hc, rfl,
        fun hc => absurd h2 hc.2⟩
    · simp only [resolveCombat, hrng]
      rw [if_pos h1, if_neg h2]
      refine ⟨rfl, rfl, fun hc => absurd hc.2 h2, fun _ => rfl, by simp, fun _ => ?_⟩
      simp
  · simp only [resolveCombat, hrng]
    rw [if_neg h1]
    exact ⟨rfl, rfl, fun hc => absurd hc.1 h1, fun _ => rfl, by simp,
      fun hc => absurd hc.1 h1⟩

/-- Witness for C4: a far-away queen strike leaves the pawn alive but out of
counter range, and the log records it. -/
theorem resolveCombat_counter_gating_witness :
    (typeName PieceType.pawn ++ " out of range to counter!") ∈
      (resolveCombat (mkPiece .queen .white 0 0 "wq") (mkPiece .pawn .black 3 3 "bp") none).log :=
  (resolveCombat_counter_gating (mkPiece .queen .white 0 0 "wq")
      (mkPiece .pawn .black 3 3 "bp") none).2.2.2.2.2 ⟨by decide, by decide⟩

/-- Claim C5: when the newly active side has no legal move, its King is in
check and its one-shot rescue is still available, the turn machine moves to
`KingRescuePending` rather than to game over or normal play. -/
theorem trapped_king_rescue_transition (fuel : Nat) (b : Board)
    (side : PieceColor) (avail : PieceColor → Bool)
    (h1 : hasAnyLegalMove fuel side b = false)
    (h2 : isKingInCheck fuel side b.squares = true)
    (h3 : avail side = true) :
    endTurnRescueStatus fuel b side avail = EngineStatus.kingRescuePending := by
  unfold endTurnRescueStatus
  rw [if_pos ⟨h1, h2, h3⟩]

/-- Witness for C5: a concrete checkmated position with the rescue flag still
available transitions to `KingRescuePending`. -/
theorem trapped_king_rescue_transition_witness :
    hasAnyLegalMove 1 PieceColor.white mateBoard = false ∧
    isKingInCheck 1 PieceColor.white mateBoard.squares = true ∧
    endTurnRescueStatus 1 mateBoard PieceColor.white (fun _ => true) =
      EngineStatus.kingRescuePending :=
  ⟨by decide, by decide,
    trapped_king_rescue_transition 1 mateBoard PieceColor.white (fun _ => true)
      (by decide) (by decide) rfl⟩

/-- Counterexample to C6 as stated: a living pawn at 19/20 HP on a Water tile
ends the environmental step at 20 HP, not at 19 + 5 = 24 — the heal is capped
at max HP, not "exactly 5". -/
theorem water_heal_not_exactly_five :
    (getPieceAt waterBoard 4 4).map (fun p => p.stats.hp) = some 19 ∧
    (getPieceAt waterBoard 4 4).map (fun p => p.stats.maxHP) = some 20 ∧
    getTileType waterBoard 4 4 = TileType.water ∧
    (getPieceAt (environmentStep waterBoard) 4 4).map (fun p => p.stats.hp) = some 20 ∧
    (20 : Nat) ≠ 19 + 5 := by
  refine ⟨by decide, by decide, by decide, by decide, by decide⟩

/-- Claim C6 (amended: Water heals 5 HP capped at max HP): the environmental
step applies, to every living piece, 10 Fire damage (the piece is then
removed if its HP reached 0), the capped Water heal when below max HP, and no
effect on Forest or Normal tiles. -/
theorem environment_step_effects (b : Board) (x y : Int) (p : Piece)
    (hcell : getPieceAt b x y = some p) (halive : isAlive p = true) :
    (getTileType b p.x p.y = TileType.fire →
      getPieceAt (environmentStep b) x y =
        (if 10 < p.stats.hp then some (takeDamage p 10) else none)) ∧
    (getTileType b p.x p.y = TileType.water →
      getPieceAt (environmentStep b) x y =
        some (if p.stats.hp < p.stats.maxHP then heal p 5 else p)) ∧
    ((getTileType b p.x p.y = TileType.normal ∨ getTileType b p.x p.y = TileType.forest) →
      getPieceAt (environmentStep b) x y = some p) := by
  have hb : (0 ≤ x ∧ x < 8 ∧ 0 ≤ y ∧ y < 8) := by
    by_contra hb
    rw [getPieceAt, if_neg hb] at hcell
    exact Option.noConfusion hcell
  have hsq : b.squares x y = some p := by
    rw [getPieceAt, if_pos hb] at hcell
    exact hcell
  have hhp : 0 < p.stats.hp := by simpa [isAlive] using halive
  refine ⟨fun ht => ?_, fun ht => ?_, fun ht => ?_⟩
  · rw [environmentStep]
    simp only [getPieceAt, if_pos hb, hsq, halive, if_true, ht, envEffect]
    by_cases h10 : 10 < p.stats.hp
    · rw [if_pos h10]
      have : isAlive (takeDamage p 10) = true := by
        simp [isAlive, takeDamage]; omega
      simp [this]
    · rw [if_neg h10]
      have : isAlive (takeDamage p 10) = false := by
        simp [isAlive, takeDamage]; omega
      simp [this]
  · rw [environmentStep]
    simp only [getPieceAt, if_pos hb, hsq, halive, if_true, ht, envEffect]
    by_cases hmax : p.stats.hp < p.stats.maxHP
    · rw [if_pos hmax]
      have : isAlive (heal p 5) = true := by
        simp [isAlive, heal]; omega
      simp [this]
    · rw [if_neg hmax]
      simp [halive]
  · rw [environmentStep]
    rcases ht with ht | ht <;>
      simp only [getPieceAt, if_pos hb, hsq, halive, if_true, ht, envEffect]

/-- Witness for C6 (amended): a full-health pawn on Fire ends at 10 HP, and a
7-HP pawn on Fire is burned off the board. -/
theorem environment_step_effects_witness :
    getPieceAt fireBoard 2 4 = some (mkPiece .pawn .white 2 4 "wp1") ∧
    isAlive (mkPiece .pawn .white 2 4 "wp1") = true ∧
    getTileType fireBoard
      (mkPiece .pawn .white 2 4 "wp1").x (mkPiece .pawn .white 2 4 "wp1").y =
      TileType.fire ∧
    getPieceAt (environmentStep fireBoard) 2 4 =
      some (takeDamage (mkPiece .pawn .white 2 4 "wp1") 10) ∧
    getPieceAt (environmentStep fireBoard) 5 4 = none := by
  refine ⟨by decide, by decide, by decide, ?_, by decide⟩
  have h := (environment_step_effects fireBoard 2 4 (mkPiece .pawn .white 2 4 "wp1")
    (by decide) (by decide)).1 (by decide)
  rw [h]
  decide

/-- Claim C7: `executeMove` with no active selection, or with a target square
that is not among the cached legal moves, returns false and leaves the whole
game state unchanged. -/
theorem executeMove_rejects_invalid (s : GameState) (toX toY : Int)
    (h : s.selectedPiece = none ∨ ∀ m ∈ s.validMoves, ¬(m.x = toX ∧ m.y = toY)) :
    executeMove s toX toY = (false, s) := by
  unfold executeMove
  rcases h with h | h
  · rw [h]
  · cases hsel : s.selectedPiece with
    | none => rfl
    | some a =>
      have hfind : s.validMoves.find?
          (fun m => decide (m.x = toX) && decide (m.y = toY)) = none := by
        rw [List.find?_eq_none]
        intro m hm
        simpa using h m hm
      rw [hfind]

/-- Witness for C7: with nothing selected the call fails and returns the
state unchanged. -/
theorem executeMove_rejects_invalid_witness :
    idleState.selectedPiece = none ∧ executeMove idleState 3 5 = (false, idleState) :=
  ⟨rfl, executeMove_rejects_invalid idleState 3 5 (Or.inl rfl)⟩

theorem getPieceAt_setPieceAt_self (b : Board) (x y : Int) (v : Option Piece)
    (hb : 0 ≤ x ∧ x < 8 ∧ 0 ≤ y ∧ y < 8) :
    getPieceAt (setPieceAt b x y v) x y = v := by
  rw [setPieceAt, if_pos hb, getPieceAt]
  simp [updateGrid, hb]

theorem getPieceAt_setPieceAt_other (b : Board) (x y x' y' : Int) (v : Option Piece)
    (h : ¬(x' = x ∧ y' = y)) :
    getPieceAt (setPieceAt b x y v) x' y' = getPieceAt b x' y' := by
  rw [setPieceAt]
  split_ifs with hb
  · rw [getPieceAt, getPieceAt]
    split_ifs with hb'
    · simp [updateGrid, h]
    · rfl
  · rfl

/-- A square whose piece is not an inspired ally of the mover is untouched by
the King's aura. -/
theorem getPieceAt_kingAuraBoard_not_ally (a : Piece) (b : Board) (x y : Int)
    (h : ∀ p, getPieceAt b x y = some p → (isAlive p && isInspiredAlly a p) = false) :
    getPieceAt (kingAuraBoard a b) x y = getPieceAt b x y := by
  rw [kingAuraBoard]
  split_ifs with hk
  · rw [getPieceAt, getPieceAt]
    split_ifs with hb
    · cases hsq : b.squares x y with
      | none => simp [hsq]
      | some p =>
        have hp : (isAlive p && isInspiredAlly a p) = false := by
          refine h p ?_
          rw [getPieceAt, if_pos hb, hsq]
        simp [hsq, hp]
    · rfl
  · rfl

theorem isInspiredAlly_same_id (a p : Piece) (h : p.id = a.id) :
    isInspiredAlly a p = false := by
  simp [isInspiredAlly, h]

theorem isInspiredAlly_other_color (a p : Piece) (h : p.color ≠ a.color) :
    isInspiredAlly a p = false := by
  simp [isInspiredAlly, h]

theorem resolveCombat_attacker_id (a d : Piece) (ob : Option Board) :
    (resolveCombat a d ob).attacker.id = a.id := by
  simp only [resolveCombat]
  split_ifs <;> rfl

theorem resolveCombat_attacker_color (a d : Piece) (ob : Option Board) :
    (resolveCombat a d ob).attacker.color = a.color := by
  simp only [resolveCombat]
  split_ifs <;> rfl

theorem resolveCombat_attacker_moveCount (a d : Piece) (ob : Option Board) :
    (resolveCombat a d ob).attacker.moveCount = a.moveCount := by
  simp only [resolveCombat]
  split_ifs <;> rfl

theorem resolveCombat_defender_id (a d : Piece) (ob : Option Board) :
    (resolveCombat a d ob).defender.id = d.id := by
  simp only [resolveCombat]
  split_ifs <;> rfl

theorem resolveCombat_defender_color (a d : Piece) (ob : Option Board) :
    (resolveCombat a d ob).defender.color = d.color := by
  simp only [resolveCombat]
  split_ifs <;> rfl

theorem resolveCombat_defender_moveCount (a d : Piece) (ob : Option Board) :
    (resolveCombat a d ob).defender.moveCount = d.moveCount := by
  simp only [resolveCombat]
  split_ifs <;> rfl

/-- Claim C3: executing an attack on a cached legal square resolves combat
before movement: a dead defender leaves the board and the attacker advances
onto the vacated square exactly when it survived the counter (mutual
destruction empties both squares); a surviving defender holds its square and
the attacker stays on its origin unless it died to the counter. -/
theorem executeMove_combat_outcomes (s : GameState) (toX toY : Int)
    (a t : Piece) (mv : ValidMove)
    (hsel : s.selectedPiece = some a)
    (hfind : s.validMoves.find?
      (fun m => decide (m.x = toX) && decide (m.y = toY)) = some mv)
    (hatk : mv.isAttack = true)
    (htgt : getPieceAt s.board toX toY = some t)
    (hcol : t.color ≠ a.color)
    (hcast : ¬(a.type = PieceType.king ∧ (toX - a.x).natAbs = 2))
    (hne : ¬(toX = a.x ∧ toY = a.y))
    (hba : 0 ≤ a.x ∧ a.x < 8 ∧ 0 ≤ a.y ∧ a.y < 8)
    (hbt : 0 ≤ toX ∧ toX < 8 ∧ 0 ≤ toY ∧ toY < 8) :
    (executeMove s toX toY).1 = true ∧
    (isAlive (resolveCombat a t none).defender = false →
      getPieceAt (executeMove s toX toY).2.board a.x a.y = none ∧
      (isAlive (resolveCombat a t none).attacker = true →
        getPieceAt (executeMove s toX toY).2.board toX toY =
          some (moveTo (resolveCombat a t none).attacker toX toY)) ∧
      (isAlive (resolveCombat a t none).attacker = false →
        getPieceAt (executeMove s toX toY).2.board toX toY = none)) ∧
    (isAlive (resolveCombat a t none).defender = true →
      getPieceAt (executeMove s toX toY).2.board toX toY =
        some (resolveCombat a t none).defender ∧
      (isAlive (resolveCombat a t none).attacker = true →
        getPieceAt (executeMove s toX toY).2.board a.x a.y =
          some (resolveCombat a t none).attacker) ∧
      (isAlive (resolveCombat a t none).attacker = false →
        getPieceAt (executeMove s toX toY).2.board a.x a.y = none)) := by
  have hne' : ¬(a.x = toX ∧ a.y = toY) := fun hc => hne ⟨hc.1.symm, hc.2.symm⟩
  set cr := resolveCombat a t none with hcr
  have hcid : cr.attacker.id = a.id := resolveCombat_attacker_id a t none
  have hccol : cr.defender.color = t.color := resolveCombat_defender_color a t none
  have hacol : cr.attacker.color = a.color := resolveCombat_attacker_color a t none
  simp only [executeMove, hsel, hfind, htgt]
  rw [if_neg hcast, if_pos hatk, ← hcr]
  by_cases hdead : isAlive cr.defender = true
  · rw [if_neg (show ¬(isAlive cr.defender = false) by simp [hdead])]
    by_cases halive : isAlive cr.attacker = true
    · rw [if_neg (show ¬(isAlive cr.attacker = false) by simp [halive])]
      dsimp only [endTurn]
      refine ⟨by split <;> rfl,
        fun hc => absurd hdead (by simp [hc]),
        fun _ => ⟨?_, fun _ => ?_, fun hc => absurd halive (by simp [hc])⟩⟩
      · have hbb : getPieceAt (setPieceAt (setPieceAt s.board toX toY (some cr.defender))
            a.x a.y (some cr.attacker)) toX toY = some cr.defender := by
          rw [getPieceAt_setPieceAt_other _ _ _ _ _ _ hne,
            getPieceAt_setPieceAt_self _ _ _ _ hbt]
        have haura : getPieceAt (kingAuraBoard cr.attacker
            (setPieceAt (setPieceAt s.board toX toY (some cr.defender))
              a.x a.y (some cr.attacker))) toX toY = some cr.defender := by
          rw [getPieceAt_kingAuraBoard_not_ally, hbb]
          intro p hp
          rw [hbb] at hp
          cases hp
          rw [isInspiredAlly_other_color]
          · simp
          · rw [hccol, hacol]; exact hcol
        split <;> exact haura
      · have haa : getPieceAt (setPieceAt (setPieceAt s.board toX toY (some cr.defender))
            a.x a.y (some cr.attacker)) a.x a.y = some cr.attacker :=
          getPieceAt_setPieceAt_self _ _ _ _ hba
        have haura : getPieceAt (kingAuraBoard cr.attacker
            (setPieceAt (setPieceAt s.board toX toY (some cr.defender))
              a.x a.y (some cr.attacker))) a.x a.y = some cr.attacker := by
          rw [getPieceAt_kingAuraBoard_not_ally, haa]
          intro p hp
          rw [haa] at hp
          cases hp
          rw [isInspiredAlly_same_id]
          · simp
          · rw [hcid]
        split <;> exact haura
    · rw [if_pos (show isAlive cr.attacker = false by
        cases h : isAlive cr.attacker with
        | true => exact absurd h halive
        | false => rfl)]
      dsimp only [endTurn]
      refine ⟨by split <;> rfl,
        fun hc => absurd hdead (by simp [hc]),
        fun _ => ⟨?_, fun hc => absurd hc halive, fun _ => ?_⟩⟩
      · have hbb : getPieceAt (setPieceAt (setPieceAt s.board toX toY (some cr.defender))
            a.x a.y none) toX toY = some cr.defender := by
          rw [getPieceAt_setPieceAt_other _ _ _ _ _ _ hne,
            getPieceAt_setPieceAt_self _ _ _ _ hbt]
        have haura : getPieceAt (kingAuraBoard cr.attacker
            (setPieceAt (setPieceAt s.board toX toY (some cr.defender))
              a.x a.y none)) toX toY = some cr.defender := by
          rw [getPieceAt_kingAuraBoard_not_ally, hbb]
          intro p hp
          rw [hbb] at hp
          cases hp
          rw [isInspiredAlly_other_color]
          · simp
          · rw [hccol, hacol]; exact hcol
        split <;> exact haura
      · have haa : getPieceAt (setPieceAt (setPieceAt s.board toX toY (some cr.defender))
            a.x a.y none) a.x a.y = none :=
          getPieceAt_setPieceAt_self _ _ _ _ hba
        have haura : getPieceAt (kingAuraBoard cr.attacker
            (setPieceAt (setPieceAt s.board toX toY (some cr.defender))
              a.x a.y none)) a.x a.y = none := by
          rw [getPieceAt_kingAuraBoard_not_ally, haa]
          intro p hp
          rw [haa] at hp
          exact Option.noConfusion hp
        split <;> exact haura
  · rw [if_pos (show isAlive cr.defender = false by
      cases h : isAlive cr.defender with
      | true => exact absurd h hdead
      | false => rfl)]
    by_cases halive : isAlive cr.attacker = true
    · rw [if_pos halive]
      dsimp only [endTurn]
      refine ⟨by split <;> rfl,
        fun _ => ⟨?_, fun _ => ?_, fun hc => absurd halive (by simp [hc])⟩,
        fun hc => absurd hc hdead⟩
      · have haa : getPieceAt (setPieceAt (setPieceAt (setPieceAt s.board toX toY none)
            a.x a.y none) toX toY (some (moveTo cr.attacker toX toY))) a.x a.y = none := by
          rw [getPieceAt_setPieceAt_other _ _ _ _ _ _ hne',
            getPieceAt_setPieceAt_self _ _ _ _ hba]
        have haura : getPieceAt (kingAuraBoard (moveTo cr.attacker toX toY)
            (setPieceAt (setPieceAt (setPieceAt s.board toX toY none)
              a.x a.y none) toX toY (some (moveTo cr.attacker toX toY)))) a.x a.y = none := by
          rw [getPieceAt_kingAuraBoard_not_ally, haa]
          intro p hp
          rw [haa] at hp
          exact Option.noConfusion hp
        split <;> exact haura
      · have hbb : getPieceAt (setPieceAt (setPieceAt (setPieceAt s.board toX toY none)
            a.x a.y none) toX toY (some (moveTo cr.attacker toX toY))) toX toY =
            some (moveTo cr.attacker toX toY) :=
          getPieceAt_setPieceAt_self _ _ _ _ hbt
        have haura : getPieceAt (kingAuraBoard (moveTo cr.attacker toX toY)
            (setPieceAt (setPieceAt (setPieceAt s.board toX toY none)
              a.x a.y none) toX toY (some (moveTo cr.attacker toX toY)))) toX toY =
            some (moveTo cr.attacker toX toY) := by
          rw [getPieceAt_kingAuraBoard_not_ally, hbb]
          intro p hp
          rw [hbb] at hp
          cases hp
          rw [isInspiredAlly_same_id]
          · simp
          · rfl
        split <;> exact haura
    · rw [if_neg halive]
      dsimp only [endTurn]
      refine ⟨by split <;> rfl,
        fun _ => ⟨?_, fun hc => absurd hc halive, fun _ => ?_⟩,
        fun hc => absurd hc hdead⟩
      · have haa : getPieceAt (setPieceAt (setPieceAt s.board toX toY none)
            a.x a.y none) a.x a.y = none :=
          getPieceAt_setPieceAt_self _ _ _ _ hba
        have haura : getPieceAt (kingAuraBoard cr.attacker
            (setPieceAt (setPieceAt s.board toX toY none) a.x a.y none)) a.x a.y = none := by
          rw [getPieceAt_kingAuraBoard_not_ally, haa]
          intro p hp
          rw [haa] at hp
          exact Option.noConfusion hp
        split <;> exact haura
      · have hbb : getPieceAt (setPieceAt (setPieceAt s.board toX toY none)
            a.x a.y none) toX toY = none := by
          rw [getPieceAt_setPieceAt_other _ _ _ _ _ _ hne,
            getPieceAt_setPieceAt_self _ _ _ _ hbt]
        have haura : getPieceAt (kingAuraBoard cr.attacker
            (setPieceAt (setPieceAt s.board toX toY none) a.x a.y none)) toX toY = none := by
          rw [getPieceAt_kingAuraBoard_not_ally, hbb]
          intro p hp
          rw [hbb] at hp
          exact Option.noConfusion hp
        split <;> exact haura

/-- Witness for C3: the specification's end-to-end scenario — pawn attacks
adjacent pawn, both end at 15 HP, the defender holds its square and the
attacker does not advance. -/
theorem executeMove_combat_outcomes_witness :
    (executeMove attackState 3 5).1 = true ∧
    (getPieceAt (executeMove attackState 3 5).2.board 3 5).map
      (fun p => p.stats.hp) = some 15 ∧
    (getPieceAt (executeMove attackState 3 5).2.board 4 6).map
      (fun p => p.stats.hp) = some 15 := by
  have h := executeMove_combat_outcomes attackState 3 5
    (mkPiece .pawn .white 4 6 "wp") (mkPiece .pawn .black 3 5 "bp")
    ⟨3, 5, true⟩ rfl (by decide) rfl (by decide) (by decide) (by decide)
    (by decide) (by decide) (by decide)
  obtain ⟨h1, -, h3⟩ := h
  have hb := h3 (by decide)
  refine ⟨h1, ?_, ?_⟩
  · rw [hb.1]; decide
  · have ha := hb.2.1 (by decide)
    rw [show (mkPiece .pawn .white 4 6 "wp").x = (4 : Int) from rfl,
      show (mkPiece .pawn .white 4 6 "wp").y = (6 : Int) from rfl] at ha
    rw [ha]; decide

/-- Claim C9: in the buff-aware combat resolution both strikes reduce the
incoming raw damage by the target's damage-reduction buffs before the floor
at 1, so a buffed target takes no more than the unbuffed damage and never
less than 1. -/
theorem buffs_reduce_damage_before_floor (a d : Piece) (ob : Option Board) :
    (resolveCombatBuffed a d ob).attackDamage =
      max (buffReduce (rawDamage a d ob) d.buffs) 1 ∧
    ((isAlive (takeDamage d (calculateDamageBuffed a d ob)) = true ∧
        max (a.x - d.x).natAbs (a.y - d.y).natAbs ≤ d.stats.rng) →
      (resolveCombatBuffed a d ob).defenderCounterDamage =
        max (buffReduce
          (rawDamage (takeDamage d (calculateDamageBuffed a d ob)) a ob) a.buffs) 1) ∧
    1 ≤ calculateDamageBuffed a d ob ∧
    calculateDamageBuffed a d ob ≤ calculateDamage a d ob := by
  have hrng : (takeDamage d (calculateDamageBuffed a d ob)).stats.rng = d.stats.rng := rfl
  refine ⟨?_, ?_, ?_, ?_⟩
  · simp only [resolveCombatBuffed]
    split_ifs <;> rfl
  · intro hc
    simp only [resolveCombatBuffed, hrng]
    rw [if_pos hc.1, if_pos hc.2]
    rfl
  · exact Nat.le_max_right _ 1
  · rw [calculateDamage_eq_raw]
    exact max_le_max_right 1 (buffReduce_le d.buffs (rawDamage a d ob))

theorem addMoveIfValid_coords (g : Grid) (c : PieceColor) (tx ty : Int)
    (m : ValidMove) (h : (addMoveIfValid g c tx ty).1 = some m) :
    m.x = tx ∧ m.y = ty := by
  unfold addMoveIfValid at h
  by_cases hb : tx < 0 ∨ 8 ≤ tx ∨ ty < 0 ∨ 8 ≤ ty
  · rw [if_pos hb] at h
    simp at h
  · rw [if_neg hb] at h
    cases hg : g tx ty with
    | none =>
      rw [hg] at h
      have hm := Option.some.inj h
      rw [← hm]
      exact ⟨rfl, rfl⟩
    | some q =>
      simp only [hg] at h
      by_cases hqc : q.color ≠ c
      · rw [if_pos hqc] at h
        have hm := Option.some.inj h
        rw [← hm]
        exact ⟨rfl, rfl⟩
      · rw [if_neg hqc] at h
        simp at h

/-- A king step move lands at most one column away. -/
theorem mem_kingNormal_dx (g : Grid) (c : PieceColor) (x y : Int) (m : ValidMove)
    (h : m ∈ kingOffsets.filterMap (fun d => (addMoveIfValid g c (x + d.1) (y + d.2)).1)) :
    (m.x - x).natAbs ≤ 1 := by
  rcases List.mem_filterMap.mp h with ⟨d, hd, hm⟩
  obtain ⟨hmx, -⟩ := addMoveIfValid_coords _ _ _ _ _ hm
  fin_cases hd <;> (rw [hmx]; omega)

/-- Claim C8: a castling destination appears among the King's legal moves
only if the King is unmoved and out of check, the matching rook is present
and unmoved, the intervening squares are empty and the crossed squares are
not under enemy attack — at every castling fuel f+1 (the gate's own check
helpers run at fuel f). -/
theorem castling_requires_all_conditions (f : Nat) (k : Piece) (g : Grid)
    (hk : k.type = PieceType.king) (hx : k.x = 4)
    (hy : k.y = (if k.color = PieceColor.white then (7 : Int) else 0)) :
    (∀ m ∈ getValidMoves (f + 1) k g, m.x = 6 → m.y = k.y →
      k.moveCount = 0 ∧ isKingInCheck f k.color g = false ∧
      (∃ r, g 7 k.y = some r ∧ r.type = PieceType.rook ∧ r.color = k.color ∧
        r.moveCount = 0) ∧
      g 5 k.y = none ∧ g 6 k.y = none ∧
      isPositionUnderAttack f k.color k.y 5 g = false ∧
      isPositionUnderAttack f k.color k.y 6 g = false) ∧
    (∀ m ∈ getValidMoves (f + 1) k g, m.x = 2 → m.y = k.y →
      k.moveCount = 0 ∧ isKingInCheck f k.color g = false ∧
      (∃ r, g 0 k.y = some r ∧ r.type = PieceType.rook ∧ r.color = k.color ∧
        r.moveCount = 0) ∧
      g 1 k.y = none ∧ g 2 k.y = none ∧ g 3 k.y = none ∧
      isPositionUnderAttack f k.color k.y 2 g = false ∧
      isPositionUnderAttack f k.color k.y 3 g = false) := by
  constructor
  · intro m hm hmx hmy
    have hpm : m ∈ getPotentialMoves (f + 1) k g := (List.mem_filter.mp hm).1
    simp only [getPotentialMoves, getPotentialMovesBody, hk] at hpm
    set row : Int := if k.color = PieceColor.white then (7 : Int) else 0 with hrow
    rcases List.mem_append.mp hpm with hn | hc
    · have hdx := mem_kingNormal_dx g k.color k.x k.y m hn
      rw [hmx, hx] at hdx
      exact absurd hdx (by decide)
    · split_ifs at hc with hcond
      · obtain ⟨hkrow, hmc, hchk⟩ := hcond
        rcases List.mem_append.mp hc with hks | hqs
        · cases hrk : g 7 row with
          | none =>
            simp only [hrk] at hks
            exact absurd hks (List.not_mem_nil m)
          | some r =>
            simp only [hrk] at hks
            split_ifs at hks with hrcond
            · obtain ⟨hrt, hrc, hrm, h5, h6, hu5, hu6⟩ := hrcond
              rw [hy]
              exact ⟨hmc, hchk, ⟨r, hrk, hrt, hrc, hrm⟩, h5, h6, hu5, hu6⟩
            · exact absurd hks (List.not_mem_nil m)
        · cases hrk : g 0 row with
          | none =>
            simp only [hrk] at hqs
            exact absurd hqs (List.not_mem_nil m)
          | some r =>
            simp only [hrk] at hqs
            split_ifs at hqs with hrcond
            · have hm2 : m = ⟨2, row, false⟩ := by simpa using hqs
              rw [hm2] at hmx
              simp at hmx
            · exact absurd hqs (List.not_mem_nil m)
      · exact absurd hc (List.not_mem_nil m)
  · intro m hm hmx hmy
    have hpm : m ∈ getPotentialMoves (f + 1) k g := (List.mem_filter.mp hm).1
    simp only [getPotentialMoves, getPotentialMovesBody, hk] at hpm
    set row : Int := if k.color = PieceColor.white then (7 : Int) else 0 with hrow
    rcases List.mem_append.mp hpm with hn | hc
    · have hdx := mem_kingNormal_dx g k.color k.x k.y m hn
      rw [hmx, hx] at hdx
      exact absurd hdx (by decide)
    · split_ifs at hc with hcond
      · obtain ⟨hkrow, hmc, hchk⟩ := hcond
        rcases List.mem_append.mp hc with hks | hqs
        · cases hrk : g 7 row with
          | none =>
            simp only [hrk] at hks
            exact absurd hks (List.not_mem_nil m)
          | some r =>
            simp only [hrk] at hks
            split_ifs at hks with hrcond
            · have hm6 : m = ⟨6, row, false⟩ := by simpa using hks
              rw [hm6] at hmx
              simp at hmx
            · exact absurd hks (List.not_mem_nil m)
        · cases hrk : g 0 row with
          | none =>
            simp only [hrk] at hqs
            exact absurd hqs (List.not_mem_nil m)
          | some r =>
            simp only [hrk] at hqs
            split_ifs at hqs with hrcond
            · obtain ⟨hrt, hrc, hrm, h1, h2, h3, hu2, hu3⟩ := hrcond
              rw [hy]
              exact ⟨hmc, hchk, ⟨r, hrk, hrt, hrc, hrm⟩, h1, h2, h3, hu2, hu3⟩
            · exact absurd hqs (List.not_mem_nil m)
      · exact absurd hc (List.not_mem_nil m)

/-- Witness for C8: on a board where every king-side condition holds for
White, the theorem applies to the generated castling move. -/
theorem castling_requires_all_conditions_witness :
    (⟨6, 7, false⟩ : ValidMove) ∈
      getValidMoves 2 (mkPiece .king .white 4 7 "wk") castleGrid ∧
    (mkPiece .king .white 4 7 "wk").moveCount = 0 ∧
    isKingInCheck 1 PieceColor.white castleGrid = false := by
  refine ⟨by decide, ?_, ?_⟩
  · exact ((castling_requires_all_conditions 1 (mkPiece .king .white 4 7 "wk")
      castleGrid rfl rfl (by decide)).1 ⟨6, 7, false⟩ (by decide) rfl (by decide)).1
  · exact ((castling_requires_all_conditions 1 (mkPiece .king .white 4 7 "wk")
      castleGrid rfl rfl (by decide)).1 ⟨6, 7, false⟩ (by decide) rfl (by decide)).2.1

theorem idmc_kingAuraBoard (a : Piece) (b : Board) (x y : Int) :
    idmc (getPieceAt (kingAuraBoard a b) x y) = idmc (getPieceAt b x y) := by
  rw [kingAuraBoard]
  split_ifs with hk
  · rw [getPieceAt, getPieceAt]
    split_ifs with hb
    · cases hsq : b.squares x y with
      | none => simp [hsq]
      | some p =>
        simp only [hsq]
        cases hc : (isAlive p && isInspiredAlly a p) <;> simp [idmc, heal]
    · rfl
  · rfl

/-- Witness for C9: a pawn striking a pawn that carries the 80% rescue buff
deals only the floor of the reduced damage (1 instead of 5), and the buffed
defender's unreduced counter is 5. -/
theorem buffs_reduce_damage_before_floor_witness :
    (resolveCombatBuffed (mkPiece .pawn .white 4 6 "wp") buffedPawn none).attackDamage = 1 ∧
    (resolveCombatBuffed (mkPiece .pawn .white 4 6 "wp") buffedPawn none).defenderCounterDamage = 5 ∧
    calculateDamage (mkPiece .pawn .white 4 6 "wp") buffedPawn none = 5 := by
  refine ⟨?_, ?_, by decide⟩
  · rw [(buffs_reduce_damage_before_floor (mkPiece .pawn .white 4 6 "wp") buffedPawn none).1]
    decide
  · rw [(buffs_reduce_damage_before_floor (mkPiece .pawn .white 4 6 "wp") buffedPawn none).2.1
      ⟨by decide, by decide⟩]
    decide


/-- Claim C10: every executed move increments the move counter of exactly the
pieces it relocates, by exactly one — the mover on a plain relocation, mover
and rook on castling, the advancing attacker on a lethal capture (and nobody
on a held square), the King on a rescue teleport, and both pieces on a rescue
swap; every piece left in place keeps its identity and move counter. -/
theorem executed_moves_increment_moveCount_once :
    -- plain relocation
    (∀ (s : GameState) (toX toY : Int) (a : Piece) (mv : ValidMove),
      s.selectedPiece = some a →
      s.validMoves.find? (fun m => decide (m.x = toX) && decide (m.y = toY)) = some mv →
      getPieceAt s.board toX toY = none →
      ¬(a.type = PieceType.king ∧ (toX - a.x).natAbs = 2) →
      ¬(toX = a.x ∧ toY = a.y) →
      (0 ≤ a.x ∧ a.x < 8 ∧ 0 ≤ a.y ∧ a.y < 8) →
      (0 ≤ toX ∧ toX < 8 ∧ 0 ≤ toY ∧ toY < 8) →
      idmc (getPieceAt (executeMove s toX toY).2.board toX toY) =
        some (a.id, a.moveCount + 1) ∧
      getPieceAt (executeMove s toX toY).2.board a.x a.y = none ∧
      (∀ x y : Int, ¬(x = toX ∧ y = toY) → ¬(x = a.x ∧ y = a.y) →
        idmc (getPieceAt (executeMove s toX toY).2.board x y) =
          idmc (getPieceAt s.board x y))) ∧
    -- king-side castling
    (∀ (s : GameState) (a r : Piece) (mv : ValidMove),
      s.selectedPiece = some a →
      s.validMoves.find? (fun m => decide (m.x = 6) && decide (m.y = a.y)) = some mv →
      a.type = PieceType.king → a.x = 4 →
      getPieceAt s.board 7 a.y = some r →
      (0 ≤ a.y ∧ a.y < 8) →
      idmc (getPieceAt (executeMove s 6 a.y).2.board 6 a.y) =
        some (a.id, a.moveCount + 1) ∧
      idmc (getPieceAt (executeMove s 6 a.y).2.board 5 a.y) =
        some (r.id, r.moveCount + 1) ∧
      getPieceAt (executeMove s 6 a.y).2.board 4 a.y = none ∧
      getPieceAt (executeMove s 6 a.y).2.board 7 a.y = none ∧
      (∀ x y : Int, ¬(x = 4 ∧ y = a.y) → ¬(x = 5 ∧ y = a.y) →
        ¬(x = 6 ∧ y = a.y) → ¬(x = 7 ∧ y = a.y) →
        idmc (getPieceAt (executeMove s 6 a.y).2.board x y) =
          idmc (getPieceAt s.board x y))) ∧
    -- queen-side castling
    (∀ (s : GameState) (a r : Piece) (mv : ValidMove),
      s.selectedPiece = some a →
      s.validMoves.find? (fun m => decide (m.x = 2) && decide (m.y = a.y)) = some mv →
      a.type = PieceType.king → a.x = 4 →
      getPieceAt s.board 0 a.y = some r →
      (0 ≤ a.y ∧ a.y < 8) →
      idmc (getPieceAt (executeMove s 2 a.y).2.board 2 a.y) =
        some (a.id, a.moveCount + 1) ∧
      idmc (getPieceAt (executeMove s 2 a.y).2.board 3 a.y) =
        some (r.id, r.moveCount + 1) ∧
      getPieceAt (executeMove s 2 a.y).2.board 4 a.y = none ∧
      getPieceAt (executeMove s 2 a.y).2.board 0 a.y = none ∧
      (∀ x y : Int, ¬(x = 4 ∧ y = a.y) → ¬(x = 3 ∧ y = a.y) →
        ¬(x = 2 ∧ y = a.y) → ¬(x = 0 ∧ y = a.y) →
        idmc (getPieceAt (executeMove s 2 a.y).2.board x y) =
          idmc (getPieceAt s.board x y))) ∧
    -- capture attempt
    (∀ (s : GameState) (toX toY : Int) (a t : Piece) (mv : ValidMove),
      s.selectedPiece = some a →
      s.validMoves.find? (fun m => decide (m.x = toX) && decide (m.y = toY)) = some mv →
      mv.isAttack = true →
      getPieceAt s.board toX toY = some t →
      ¬(a.type = PieceType.king ∧ (toX - a.x).natAbs = 2) →
      ¬(toX = a.x ∧ toY = a.y) →
      (0 ≤ a.x ∧ a.x < 8 ∧ 0 ≤ a.y ∧ a.y < 8) →
      (0 ≤ toX ∧ toX < 8 ∧ 0 ≤ toY ∧ toY < 8) →
      (isAlive (resolveCombat a t none).defender = false →
        isAlive (resolveCombat a t none).attacker = true →
        idmc (getPieceAt (executeMove s toX toY).2.board toX toY) =
          some (a.id, a.moveCount + 1) ∧
        getPieceAt (executeMove s toX toY).2.board a.x a.y = none) ∧
      (isAlive (resolveCombat a t none).defender = false →
        isAlive (resolveCombat a t none).attacker = false →
        getPieceAt (executeMove s toX toY).2.board toX toY = none ∧
        getPieceAt (executeMove s toX toY).2.board a.x a.y = none) ∧
      (isAlive (resolveCombat a t none).defender = true →
        idmc (getPieceAt (executeMove s toX toY).2.board toX toY) =
          some (t.id, t.moveCount) ∧
        (isAlive (resolveCombat a t none).attacker = true →
          idmc (getPieceAt (executeMove s toX toY).2.board a.x a.y) =
            some (a.id, a.moveCount)) ∧
        (isAlive (resolveCombat a t none).attacker = false →
          getPieceAt (executeMove s toX toY).2.board a.x a.y = none)) ∧
      (∀ x y : Int, ¬(x = toX ∧ y = toY) → ¬(x = a.x ∧ y = a.y) →
        idmc (getPieceAt (executeMove s toX toY).2.board x y) =
          idmc (getPieceAt s.board x y))) ∧
    -- rescue teleport (modelled from the spec)
    (∀ (b b2 : Board) (k : Piece) (x y : Int),
      getPieceAt b k.x k.y = some k →
      (0 ≤ k.x ∧ k.x < 8 ∧ 0 ≤ k.y ∧ k.y < 8) →
      executeTeleport b k x y = some b2 →
      idmc (getPieceAt b2 x y) = some (k.id, k.moveCount + 1) ∧
      getPieceAt b2 k.x k.y = none ∧
      (∀ u v : Int, ¬(u = x ∧ v = y) → ¬(u = k.x ∧ v = k.y) →
        idmc (getPieceAt b2 u v) = idmc (getPieceAt b u v))) ∧
    -- rescue swap (modelled from the spec)
    (∀ (b b2 : Board) (k al : Piece) (x y : Int),
      getPieceAt b k.x k.y = some k →
      k.type = PieceType.king →
      getPieceAt b x y = some al →
      (0 ≤ k.x ∧ k.x < 8 ∧ 0 ≤ k.y ∧ k.y < 8) →
      (0 ≤ x ∧ x < 8 ∧ 0 ≤ y ∧ y < 8) →
      executeSwap b k x y = some b2 →
      idmc (getPieceAt b2 x y) = some (k.id, k.moveCount + 1) ∧
      idmc (getPieceAt b2 k.x k.y) = some (al.id, al.moveCount + 1) ∧
      (∀ u v : Int, ¬(u = x ∧ v = y) → ¬(u = k.x ∧ v = k.y) →
        idmc (getPieceAt b2 u v) = idmc (getPieceAt b u v))) := by
  refine ⟨?_, ?_, ?_, ?_, ?_, ?_⟩
  -- plain relocation
  · intro s toX toY a mv hsel hfind htgt hcast hne hba hbt
    have hne' : ¬(a.x = toX ∧ a.y = toY) := fun hc => hne ⟨hc.1.symm, hc.2.symm⟩
    simp only [executeMove, hsel, hfind, htgt]
    rw [if_neg hcast]
    dsimp only [endTurn]
    refine ⟨?_, ?_, ?_⟩
    · split <;>
      · rw [idmc_kingAuraBoard, getPieceAt_setPieceAt_self _ _ _ _ hbt]
        rfl
    · split <;>
      · rw [getPieceAt_kingAuraBoard_not_ally]
        · rw [getPieceAt_setPieceAt_other _ _ _ _ _ _ hne',
            getPieceAt_setPieceAt_self _ _ _ _ hba]
        · intro p hp
          rw [getPieceAt_setPieceAt_other _ _ _ _ _ _ hne',
            getPieceAt_setPieceAt_self _ _ _ _ hba] at hp
          exact Option.noConfusion hp
    · intro x y hxy hxa
      split <;>
      · rw [idmc_kingAuraBoard, getPieceAt_setPieceAt_other _ _ _ _ _ _ hxy,
          getPieceAt_setPieceAt_other _ _ _ _ _ _ hxa]
  -- king-side castling
  · intro s a r mv hsel hfind hk hx4 hrook hby
    have hcastle : a.type = PieceType.king ∧ ((6 : Int) - a.x).natAbs = 2 :=
      ⟨hk, by rw [hx4]; rfl⟩
    have hlt : a.x < (6 : Int) := by omega
    simp only [executeMove, hsel, hfind]
    rw [if_pos hcastle, if_pos hlt]
    simp only [hrook]
    dsimp only [endTurn]
    have hb7 : (0 ≤ (7 : Int) ∧ (7 : Int) < 8 ∧ 0 ≤ a.y ∧ a.y < 8) := by omega
    have hb6 : (0 ≤ (6 : Int) ∧ (6 : Int) < 8 ∧ 0 ≤ a.y ∧ a.y < 8) := by omega
    have hb5 : (0 ≤ (5 : Int) ∧ (5 : Int) < 8 ∧ 0 ≤ a.y ∧ a.y < 8) := by omega
    have hb4 : (0 ≤ a.x ∧ a.x < 8 ∧ 0 ≤ a.y ∧ a.y < 8) := by omega
    refine ⟨?_, ?_, ?_, ?_, ?_⟩
    · split <;>
      · rw [idmc_kingAuraBoard, getPieceAt_setPieceAt_self _ _ _ _ hb6]
        rfl
    · split <;>
      · rw [idmc_kingAuraBoard,
          getPieceAt_setPieceAt_other _ _ _ _ _ _ (by omega : ¬((5:Int) = 6 ∧ a.y = a.y)),
          getPieceAt_setPieceAt_other _ _ _ _ _ _ (by rw [hx4]; omega : ¬((5:Int) = a.x ∧ a.y = a.y)),
          getPieceAt_setPieceAt_self _ _ _ _ hb5]
        rfl
    · split <;>
      · rw [getPieceAt_kingAuraBoard_not_ally]
        · rw [getPieceAt_setPieceAt_other _ _ _ _ _ _ (by omega : ¬((4:Int) = 6 ∧ a.y = a.y)),
            show (4 : Int) = a.x from hx4.symm,
            getPieceAt_setPieceAt_self _ _ _ _ hb4]
        · intro p hp
          rw [getPieceAt_setPieceAt_other _ _ _ _ _ _ (by omega : ¬((4:Int) = 6 ∧ a.y = a.y)),
            show (4 : Int) = a.x from hx4.symm,
            getPieceAt_setPieceAt_self _ _ _ _ hb4] at hp
          exact Option.noConfusion hp
    · split <;>
      · rw [getPieceAt_kingAuraBoard_not_ally]
        · rw [getPieceAt_setPieceAt_other _ _ _ _ _ _ (by omega : ¬((7:Int) = 6 ∧ a.y = a.y)),
            getPieceAt_setPieceAt_other _ _ _ _ _ _ (by rw [hx4]; omega : ¬((7:Int) = a.x ∧ a.y = a.y)),
            getPieceAt_setPieceAt_other _ _ _ _ _ _ (by omega : ¬((7:Int) = 5 ∧ a.y = a.y)),
            getPieceAt_setPieceAt_self _ _ _ _ hb7]
        · intro p hp
          rw [getPieceAt_setPieceAt_other _ _ _ _ _ _ (by omega : ¬((7:Int) = 6 ∧ a.y = a.y)),
            getPieceAt_setPieceAt_other _ _ _ _ _ _ (by rw [hx4]; omega : ¬((7:Int) = a.x ∧ a.y = a.y)),
            getPieceAt_setPieceAt_other _ _ _ _ _ _ (by omega : ¬((7:Int) = 5 ∧ a.y = a.y)),
            getPieceAt_setPieceAt_self _ _ _ _ hb7] at hp
          exact Option.noConfusion hp
    · intro x y h4 h5 h6 h7
      have h4' : ¬(x = a.x ∧ y = a.y) := by rw [← hx4] at h4; exact h4
      split <;>
      · rw [idmc_kingAuraBoard,
          getPieceAt_setPieceAt_other _ _ _ _ _ _ h6,
          getPieceAt_setPieceAt_other _ _ _ _ _ _ h4',
          getPieceAt_setPieceAt_other _ _ _ _ _ _ h5,
          getPieceAt_setPieceAt_other _ _ _ _ _ _ h7]
  -- queen-side castling
  · intro s a r mv hsel hfind hk hx4 hrook hby
    have hcastle : a.type = PieceType.king ∧ ((2 : Int) - a.x).natAbs = 2 :=
      ⟨hk, by rw [hx4]; rfl⟩
    have hlt : ¬(a.x < (2 : Int)) := by omega
    simp only [executeMove, hsel, hfind]
    rw [if_pos hcastle, if_neg hlt]
    simp only [hrook]
    dsimp only [endTurn]
    have hb0 : (0 ≤ (0 : Int) ∧ (0 : Int) < 8 ∧ 0 ≤ a.y ∧ a.y < 8) := by omega
    have hb2 : (0 ≤ (2 : Int) ∧ (2 : Int) < 8 ∧ 0 ≤ a.y ∧ a.y < 8) := by omega
    have hb3 : (0 ≤ (3 : Int) ∧ (3 : Int) < 8 ∧ 0 ≤ a.y ∧ a.y < 8) := by omega
    have hb4 : (0 ≤ a.x ∧ a.x < 8 ∧ 0 ≤ a.y ∧ a.y < 8) := by omega
    refine ⟨?_, ?_, ?_, ?_, ?_⟩
    · split <;>
      · rw [idmc_kingAuraBoard, getPieceAt_setPieceAt_self _ _ _ _ hb2]
        rfl
    · split <;>
      · rw [idmc_kingAuraBoard,
          getPieceAt_setPieceAt_other _ _ _ _ _ _ (by omega : ¬((3:Int) = 2 ∧ a.y = a.y)),
          getPieceAt_setPieceAt_other _ _ _ _ _ _ (by rw [hx4]; omega : ¬((3:Int) = a.x ∧ a.y = a.y)),
          getPieceAt_setPieceAt_self _ _ _ _ hb3]
        rfl
    · split <;>
      · rw [getPieceAt_kingAuraBoard_not_ally]
        · rw [getPieceAt_setPieceAt_other _ _ _ _ _ _ (by omega : ¬((4:Int) = 2 ∧ a.y = a.y)),
            show (4 : Int) = a.x from hx4.symm,
            getPieceAt_setPieceAt_self _ _ _ _ hb4]
        · intro p hp
          rw [getPieceAt_setPieceAt_other _ _ _ _ _ _ (by omega : ¬((4:Int) = 2 ∧ a.y = a.y)),
            show (4 : Int) = a.x from hx4.symm,
            getPieceAt_setPieceAt_self _ _ _ _ hb4] at hp
          exact Option.noConfusion hp
    · split <;>
      · rw [getPieceAt_kingAuraBoard_not_ally]
        · rw [getPieceAt_setPieceAt_other _ _ _ _ _ _ (by omega : ¬((0:Int) = 2 ∧ a.y = a.y)),
            getPieceAt_setPieceAt_other _ _ _ _ _ _ (by rw [hx4]; omega : ¬((0:Int) = a.x ∧ a.y = a.y)),
            getPieceAt_setPieceAt_other _ _ _ _ _ _ (by omega : ¬((0:Int) = 3 ∧ a.y = a.y)),
            getPieceAt_setPieceAt_self _ _ _ _ hb0]
        · intro p hp
          rw [getPieceAt_setPieceAt_other _ _ _ _ _ _ (by omega : ¬((0:Int) = 2 ∧ a.y = a.y)),
            getPieceAt_setPieceAt_other _ _ _ _ _ _ (by rw [hx4]; omega : ¬((0:Int) = a.x ∧ a.y = a.y)),
            getPieceAt_setPieceAt_other _ _ _ _ _ _ (by omega : ¬((0:Int) = 3 ∧ a.y = a.y)),
            getPieceAt_setPieceAt_self _ _ _ _ hb0] at hp
          exact Option.noConfusion hp
    · intro x y h4 h3 h2 h0
      have h4' : ¬(x = a.x ∧ y = a.y) := by rw [← hx4] at h4; exact h4
      split <;>
      · rw [idmc_kingAuraBoard,
          getPieceAt_setPieceAt_other _ _ _ _ _ _ h2,
          getPieceAt_setPieceAt_other _ _ _ _ _ _ h4',
          getPieceAt_setPieceAt_other _ _ _ _ _ _ h3,
          getPieceAt_setPieceAt_other _ _ _ _ _ _ h0]
  -- capture
  · intro s toX toY a t mv hsel hfind hatk htgt hcast hne hba hbt
    have hne' : ¬(a.x = toX ∧ a.y = toY) := fun hc => hne ⟨hc.1.symm, hc.2.symm⟩
    set cr := resolveCombat a t none with hcr
    have hcid : cr.attacker.id = a.id := resolveCombat_attacker_id a t none
    have hcmc : cr.attacker.moveCount = a.moveCount :=
      resolveCombat_attacker_moveCount a t none
    have hdid : cr.defender.id = t.id := resolveCombat_defender_id a t none
    have hdmc : cr.defender.moveCount = t.moveCount :=
      resolveCombat_defender_moveCount a t none
    simp only [executeMove, hsel, hfind, htgt]
    rw [if_neg hcast, if_pos hatk, ← hcr]
    by_cases hdead : isAlive cr.defender = true
    · rw [if_neg (show ¬(isAlive cr.defender = false) by simp [hdead])]
      by_cases halive : isAlive cr.attacker = true
      · rw [if_neg (show ¬(isAlive cr.attacker = false) by simp [halive])]
        dsimp only [endTurn]
        refine ⟨fun hc => absurd hdead (by simp [hc]),
          fun hc => absurd hdead (by simp [hc]), fun _ => ?_, ?_⟩
        · refine ⟨?_, fun _ => ?_, fun hc => absurd halive (by simp [hc])⟩
          · split <;>
            · rw [idmc_kingAuraBoard,
                getPieceAt_setPieceAt_other _ _ _ _ _ _ hne,
                getPieceAt_setPieceAt_self _ _ _ _ hbt]
              simp [idmc, hdid, hdmc]
          · split <;>
            · rw [idmc_kingAuraBoard, getPieceAt_setPieceAt_self _ _ _ _ hba]
              simp [idmc, hcid, hcmc]
        · intro x y hxy hxa
          split <;>
          · rw [idmc_kingAuraBoard,
              getPieceAt_setPieceAt_other _ _ _ _ _ _ hxa,
              getPieceAt_setPieceAt_other _ _ _ _ _ _ hxy]
      · rw [if_pos (show isAlive cr.attacker = false by
          cases h : isAlive cr.attacker with
          | true => exact absurd h halive
          | false => rfl)]
        dsimp only [endTurn]
        refine ⟨fun hc => absurd hdead (by simp [hc]),
          fun hc => absurd hdead (by simp [hc]), fun _ => ?_, ?_⟩
        · refine ⟨?_, fun hc => absurd hc halive, fun _ => ?_⟩
          · split <;>
            · rw [idmc_kingAuraBoard,
                getPieceAt_setPieceAt_other _ _ _ _ _ _ hne,
                getPieceAt_setPieceAt_self _ _ _ _ hbt]
              simp [idmc, hdid, hdmc]
          · split <;>
            · rw [getPieceAt_kingAuraBoard_not_ally]
              · rw [getPieceAt_setPieceAt_self _ _ _ _ hba]
              · intro p hp
                rw [getPieceAt_setPieceAt_self _ _ _ _ hba] at hp
                exact Option.noConfusion hp
        · intro x y hxy hxa
          split <;>
          · rw [idmc_kingAuraBoard,
              getPieceAt_setPieceAt_other _ _ _ _ _ _ hxa,
              getPieceAt_setPieceAt_other _ _ _ _ _ _ hxy]
    · rw [if_pos (show isAlive cr.defender = false by
        cases h : isAlive cr.defender with
        | true => exact absurd h hdead
        | false => rfl)]
      by_cases halive : isAlive cr.attacker = true
      · rw [if_pos halive]
        dsimp only [endTurn]
        refine ⟨fun _ _ => ?_, fun _ hc => absurd halive (by simp [hc]),
          fun hc => absurd hc hdead, ?_⟩
        · constructor
          · split <;>
            · rw [idmc_kingAuraBoard, getPieceAt_setPieceAt_self _ _ _ _ hbt]
              simp [idmc, moveTo, hcid, hcmc]
          · split <;>
            · rw [getPieceAt_kingAuraBoard_not_ally]
              · rw [getPieceAt_setPieceAt_other _ _ _ _ _ _ hne',
                  getPieceAt_setPieceAt_self _ _ _ _ hba]
              · intro p hp
                rw [getPieceAt_setPieceAt_other _ _ _ _ _ _ hne',
                  getPieceAt_setPieceAt_self _ _ _ _ hba] at hp
                exact Option.noConfusion hp
        · intro x y hxy hxa
          split <;>
          · rw [idmc_kingAuraBoard,
              getPieceAt_setPieceAt_other _ _ _ _ _ _ hxy,
              getPieceAt_setPieceAt_other _ _ _ _ _ _ hxa,
              getPieceAt_setPieceAt_other _ _ _ _ _ _ hxy]
      · rw [if_neg halive]
        dsimp only [endTurn]
        refine ⟨fun _ hc => absurd hc halive, fun _ _ => ?_,
          fun hc => absurd hc hdead, ?_⟩
        · constructor
          · split <;>
            · rw [getPieceAt_kingAuraBoard_not_ally]
              · rw [getPieceAt_setPieceAt_other _ _ _ _ _ _ hne,
                  getPieceAt_setPieceAt_self _ _ _ _ hbt]
              · intro p hp
                rw [getPieceAt_setPieceAt_other _ _ _ _ _ _ hne,
                  getPieceAt_setPieceAt_self _ _ _ _ hbt] at hp
                exact Option.noConfusion hp
          · split <;>
            · rw [getPieceAt_kingAuraBoard_not_ally]
              · rw [getPieceAt_setPieceAt_self _ _ _ _ hba]
              · intro p hp
                rw [getPieceAt_setPieceAt_self _ _ _ _ hba] at hp
                exact Option.noConfusion hp
        · intro x y hxy hxa
          split <;>
          · rw [idmc_kingAuraBoard,
              getPieceAt_setPieceAt_other _ _ _ _ _ _ hxa,
              getPieceAt_setPieceAt_other _ _ _ _ _ _ hxy]
  -- rescue teleport, modelled
  · intro b b2 k x y hsync hbk hres
    unfold executeTeleport at hres
    split_ifs at hres with hcond
    · obtain ⟨hempty, hbx⟩ := hcond
      have hb2 := Option.some.inj hres
      have hnxy : ¬(x = k.x ∧ y = k.y) := by
        rintro ⟨rfl, rfl⟩
        rw [hsync] at hempty
        exact Option.noConfusion hempty
      have hnk : ¬(k.x = x ∧ k.y = y) := fun hc => hnxy ⟨hc.1.symm, hc.2.symm⟩
      refine ⟨?_, ?_, ?_⟩
      · rw [← hb2, getPieceAt_setPieceAt_self _ _ _ _ (by tauto)]
        simp [idmc, addBuff, moveTo]
      · rw [← hb2, getPieceAt_setPieceAt_other _ _ _ _ _ _ hnk,
          getPieceAt_setPieceAt_self _ _ _ _ hbk]
      · intro u v huv huk
        rw [← hb2, getPieceAt_setPieceAt_other _ _ _ _ _ _ huv,
          getPieceAt_setPieceAt_other _ _ _ _ _ _ huk]
  -- rescue swap, modelled
  · intro b b2 k al x y hsync hk hall hbk hbxy hres
    unfold executeSwap at hres
    simp only [hall] at hres
    split_ifs at hres with hcond
    · obtain ⟨hal1, hal2, hal3⟩ := hcond
      have hb2 := Option.some.inj hres
      have hnxy : ¬(x = k.x ∧ y = k.y) := by
        rintro ⟨rfl, rfl⟩
        rw [hsync] at hall
        have := Option.some.inj hall
        rw [← this] at hal3
        exact hal3 hk
      have hnk : ¬(k.x = x ∧ k.y = y) := fun hc => hnxy ⟨hc.1.symm, hc.2.symm⟩
      refine ⟨?_, ?_, ?_⟩
      · rw [← hb2, getPieceAt_setPieceAt_other _ _ _ _ _ _ hnxy,
          getPieceAt_setPieceAt_self _ _ _ _ hbxy]
        rfl
      · rw [← hb2, getPieceAt_setPieceAt_self _ _ _ _ hbk]
        rfl
      · intro u v huv huk
        rw [← hb2, getPieceAt_setPieceAt_other _ _ _ _ _ _ huk,
          getPieceAt_setPieceAt_other _ _ _ _ _ _ huv]

/-- Witness for C10: a concrete plain pawn move bumps the pawn's counter from
0 to 1, a rescue teleport bumps the King's from 1 to 2, and a rescue swap
bumps King and rook to 2 and 3. -/
theorem executed_moves_increment_moveCount_once_witness :
    idmc (getPieceAt (executeMove attackState 4 5).2.board 4 5) = some ("wp", 1) ∧
    idmc (getPieceAt (setPieceAt (setPieceAt rescueBoard
        ({ mkPiece .king .white 0 7 "wk" with moveCount := 1 }).x
        ({ mkPiece .king .white 0 7 "wk" with moveCount := 1 }).y none) 4 4
        (some (addBuff (moveTo { mkPiece .king .white 0 7 "wk" with moveCount := 1 } 4 4)
          rescueBuff))) 4 4) = some ("wk", 2) ∧
    idmc (getPieceAt (setPieceAt (setPieceAt rescueBoard 3 7
        (some (addBuff (moveTo { mkPiece .king .white 0 7 "wk" with moveCount := 1 } 3 7)
          rescueBuff)))
        ({ mkPiece .king .white 0 7 "wk" with moveCount := 1 }).x
        ({ mkPiece .king .white 0 7 "wk" with moveCount := 1 }).y
        (some (moveTo { mkPiece .rook .white 3 7 "wr" with moveCount := 2 }
          ({ mkPiece .king .white 0 7 "wk" with moveCount := 1 }).x
          ({ mkPiece .king .white 0 7 "wk" with moveCount := 1 }).y))) 3 7) =
      some ("wk", 2) := by
  refine ⟨?_, ?_, ?_⟩
  · exact (executed_moves_increment_moveCount_once.1 attackState 4 5
      (mkPiece .pawn .white 4 6 "wp") ⟨4, 5, false⟩ rfl (by decide) (by decide)
      (by decide) (by decide) (by decide) (by decide)).1
  · exact (executed_moves_increment_moveCount_once.2.2.2.2.1 rescueBoard _
      { mkPiece .king .white 0 7 "wk" with moveCount := 1 } 4 4
      (by decide) (by decide) rfl).1
  · exact (executed_moves_increment_moveCount_once.2.2.2.2.2 rescueBoard _
      { mkPiece .king .white 0 7 "wk" with moveCount := 1 }
      { mkPiece .rook .white 3 7 "wr" with moveCount := 2 } 3 7
      (by decide) rfl (by decide) (by decide) (by decide) rfl).1

end BattleChess
